import Mathlib

/-!
Shallow embedding of the ShellPM / PMlib measurement engine
(src/src_pmlib: PerfWatch and PerfMonitor member functions, and
src/src_pmlib/PerfRecord.cpp / src/unnamed/part_002 for persistence).

Modelling conventions:
* C `double` values are modelled as exact rationals (`ℚ`); `long long`
  counter values as `ℤ`; C `unsigned` as `ℕ`.
* The fixed-size 2-D counter arrays (`th_values`, `th_accumu`,
  `th_v_sorted`) are modelled as lists of lists at their active extent
  `num_threads x num_events`; element access uses `getD` with default 0,
  matching the loops `for (j=0; j<num_threads; j++) for (i=0; i<num_events; i++)`.
* Global configuration read by the code (`hwpc_group`, the initial
  `papi` structure, environment variables) is passed as explicit
  parameters.
* `fprintf` diagnostics are modelled as a returned list of `Warning`s.
-/

namespace ShellPM

/-- C `lround`: round to nearest integer, ties away from zero. -/
def lround (q : ℚ) : ℤ := if 0 ≤ q then ⌊q + 1/2⌋ else -⌊-q + 1/2⌋

/-- Event-group counters `hwpc_group.number[I_*]` consulted by
`PerfWatch::statsSwitch`. -/
structure HwpcGroup where
  bandwidth : ℤ
  flops : ℤ
  vector : ℤ
  cache : ℤ
  cycle : ℤ
  loadstore : ℤ
deriving DecidableEq, Repr

/-- configuration with no HWPC events programmed (USER mode /
builds without PAPI). -/
def userGroup : HwpcGroup := ⟨0, 0, 0, 0, 0, 0⟩

/-- PerfWatch::statsSwitch (src_pmlib source lines 275-309): select the
measurement unit from the programmed HWPC event groups, falling back to
the user counter mode 0/1 chosen by `m_typeCalc`. -/
def statsSwitch (g : HwpcGroup) (typeCalc : ℤ) : ℤ :=
  if 0 < g.bandwidth then 2
  else if 0 < g.flops then 3
  else if 0 < g.vector then 4
  else if 0 < g.cache then 5
  else if 0 < g.cycle then 6
  else if 0 < g.loadstore then 7
  else if typeCalc = 0 then 0
  else if typeCalc = 1 then 1
  else -1

/-- Modelled from the spec: the `pmlib_papi_chooser` struct layout
(`PerfWatch.h` is not under src/); fields and their roles are those of
spec section 3 (`th_values[T][E]` integer counter snapshots at start,
`th_accumu[T][E]` accumulated counter deltas, `th_v_sorted[T][S]`
per-thread derived metric vector, `accumu[E]`/`v_sorted[S]`
process-level aggregates). -/
structure PapiChooser where
  num_events : ℕ
  th_values : List (List ℤ)
  th_accumu : List (List ℤ)
  th_v_sorted : List (List ℚ)
  accumu : List ℚ
  v_sorted : List ℚ
deriving DecidableEq, Repr

/-- Per-section measurement record: the PerfWatch fields read or written
by the embedded member functions. -/
structure PerfWatch where
  m_label : String
  m_id : ℤ
  m_typeCalc : ℤ
  m_exclusive : Bool
  m_in_parallel : Bool
  m_is_set : Bool
  m_is_healthy : Bool
  m_started : Bool
  m_threads_merged : Bool
  m_startTime : ℚ
  m_stopTime : ℚ
  m_time : ℚ
  m_count : ℤ
  m_flop : ℚ
  num_threads : ℕ
  num_process : ℕ
  my_rank : ℕ
  my_thread : ℕ
  my_papi : PapiChooser
deriving DecidableEq, Repr

/-- element access into a 2-D integer counter array. -/
def get2z (m : List (List ℤ)) (j i : ℕ) : ℤ := (m.getD j []).getD i 0

/-- element access into a 2-D rational array. -/
def get2q (m : List (List ℚ)) (j i : ℕ) : ℚ := (m.getD j []).getD i 0

/-- single-element update in a 2-D rational array. -/
def set2q (m : List (List ℚ)) (j i : ℕ) (v : ℚ) : List (List ℚ) :=
  m.set j ((m.getD j []).set i v)

/-- overwrite the first `e` entries of a row by `f`, keeping the rest:
the inner loop `for (i=0; i<e; i++) row[i] = f(i)`. -/
def owRowZ (e : ℕ) (f : ℕ → ℤ) (old : List ℤ) : List ℤ :=
  (List.range e).map f ++ old.drop e

/-- same as `owRowZ` for rational rows. -/
def owRowQ (e : ℕ) (f : ℕ → ℚ) (old : List ℚ) : List ℚ :=
  (List.range e).map f ++ old.drop e

/-- accumulation loop `s = 0; for (j=0; j<n; j++) s += f(j);`. -/
def loopSumQ (n : ℕ) (f : ℕ → ℚ) : ℚ :=
  (List.range n).foldl (fun a j => a + f j) 0

/-- diagnostics printed to stderr by the embedded functions. -/
inductive Warning
  | notHealthy
  | alreadyStarted
  | notSet
  | notStarted
  | unknownLabel
  | blankLabel
deriving DecidableEq, Repr

/-- PerfWatch::start (source lines 1194-1233): warn (but do not return)
on an unhealthy, already-started or unset section; mark the section
started, capture the start time, clear `m_threads_merged`; then
`startSectionParallel`/`startSectionSerial` snapshot the HWPC counters
into `th_values` (serial calls fan out and read every thread; the user
counter mode reads nothing).  `reads j i` is the value returned by
`my_papi_bind_read` on thread `j` for event `i`. -/
def PerfWatch.start (g : HwpcGroup) (now : ℚ) (reads : ℕ → ℕ → ℤ)
    (w : PerfWatch) : PerfWatch × List Warning :=
  let warns := (if w.m_is_healthy then [] else [Warning.notHealthy])
    ++ (if w.m_started then [Warning.alreadyStarted] else [])
    ++ (if w.m_is_set then [] else [Warning.notSet])
  let w := { w with m_started := true, m_startTime := now, m_threads_merged := false }
  let is_unit := statsSwitch g w.m_typeCalc
  let w :=
    if 2 ≤ is_unit then
      if w.m_in_parallel then
        { w with my_papi := { w.my_papi with
            th_values := w.my_papi.th_values.set w.my_thread
              (owRowZ w.my_papi.num_events (fun i => reads w.my_thread i)
                (w.my_papi.th_values.getD w.my_thread [])) } }
      else
        { w with my_papi := { w.my_papi with
            th_values := (List.range w.num_threads).map (fun j =>
              owRowZ w.my_papi.num_events (fun i => reads j i)
                (w.my_papi.th_values.getD j [])) } }
    else w
  (w, warns)

/-- PerfWatch::stop (source lines 1378-1453) together with
`stopSectionSerial` (1506-1564) and `stopSectionParallel` (1570-1610):
self-correct an unhealthy or not-started section with a warning, then
accumulate elapsed time, bump the call count, mark the section idle;
in HWPC mode accumulate counter deltas into `th_accumu`, in user mode
(`is_unit` 0 or 1) add `flopPerTask * iterationCount` to `m_flop`;
finally save count/time/flop into `th_v_sorted[my_thread][0..2]`
(the OTF trace level is 0 in this model, so `sortPapiCounterList` is
not invoked). -/
def PerfWatch.stop (g : HwpcGroup) (now flopPerTask : ℚ) (iterationCount : ℕ)
    (reads : ℕ → ℕ → ℤ) (w : PerfWatch) : PerfWatch × List Warning :=
  let warns := (if w.m_is_healthy then [] else [Warning.notHealthy])
    ++ (if w.m_started then [] else [Warning.notStarted])
  let w := if w.m_is_healthy then w else { w with m_is_healthy := true }
  let w := if w.m_started then w else { w with m_started := true }
  let w := { w with m_stopTime := now,
                    m_time := w.m_time + (now - w.m_startTime),
                    m_count := w.m_count + 1,
                    m_started := false }
  let is_unit := statsSwitch g w.m_typeCalc
  let w :=
    if 2 ≤ is_unit then
      if w.m_in_parallel then
        { w with my_papi := { w.my_papi with
            th_accumu := w.my_papi.th_accumu.set w.my_thread
              (owRowZ w.my_papi.num_events
                (fun i => get2z w.my_papi.th_accumu w.my_thread i
                  + (reads w.my_thread i - get2z w.my_papi.th_values w.my_thread i))
                (w.my_papi.th_accumu.getD w.my_thread [])) } }
      else
        { w with my_papi := { w.my_papi with
            th_accumu := (List.range w.num_threads).map (fun j =>
              owRowZ w.my_papi.num_events
                (fun i => get2z w.my_papi.th_accumu j i
                  + (reads j i - get2z w.my_papi.th_values j i))
                (w.my_papi.th_accumu.getD j [])) } }
    else if is_unit = 0 ∨ is_unit = 1 then
      { w with m_flop := w.m_flop + flopPerTask * (iterationCount : ℚ) }
    else w
  let w := { w with my_papi := { w.my_papi with
      th_v_sorted :=
        set2q (set2q (set2q w.my_papi.th_v_sorted w.my_thread 0 (w.m_count : ℚ))
          w.my_thread 1 w.m_time) w.my_thread 2 w.m_flop } }
  (w, warns)

/-- one start or stop call on a single watch, with its argument values.
The counter read-out is left empty (`fun _ _ => 0`) in trace events;
it is irrelevant in user mode. -/
inductive WEvent
  | wstart (now : ℚ)
  | wstop (now flop : ℚ) (iters : ℕ)
deriving DecidableEq, Repr

/-- apply one watch-level event, dropping the warnings. -/
def stepW (g : HwpcGroup) (w : PerfWatch) : WEvent → PerfWatch
  | .wstart t => (PerfWatch.start g t (fun _ _ => 0) w).1
  | .wstop t f i => (PerfWatch.stop g t f i (fun _ _ => 0) w).1

/-- run a sequence of start/stop calls on one watch. -/
def runW (g : HwpcGroup) (w : PerfWatch) : List WEvent → PerfWatch
  | [] => w
  | e :: tr => runW g (stepW g w e) tr

/-- number of stop calls in a trace. -/
def countStops : List WEvent → ℕ
  | [] => 0
  | .wstop _ _ _ :: tr => countStops tr + 1
  | .wstart _ :: tr => countStops tr

/-- number of start/stop pairs actually executed in a trace: a stop is
counted only when the section is in the started state when it arrives
(the claim's notion of an executed pair). -/
def specPairsExecuted (g : HwpcGroup) (w : PerfWatch) : List WEvent → ℕ
  | [] => 0
  | e :: tr =>
    (match e with
      | .wstop _ _ _ => if w.m_started then 1 else 0
      | .wstart _ => 0)
      + specPairsExecuted g (stepW g w e) tr

/-- one completed start/stop pair: start at `t1`, stop at `t2` with
user-declared work `flop * iters`. -/
structure PairCall where
  t1 : ℚ
  t2 : ℚ
  flop : ℚ
  iters : ℕ
deriving DecidableEq, Repr

/-- the event trace of a list of completed pairs. -/
def pairsTrace : List PairCall → List WEvent
  | [] => []
  | p :: ps => WEvent.wstart p.t1 :: WEvent.wstop p.t2 p.flop p.iters :: pairsTrace ps

/-- a freshly created, idle, healthy section watch in user counter mode.
Modelled from the spec: the PerfWatch constructor is in `PerfWatch.h`,
which is not under src/; the spec (section 3, Lifecycles) has fresh
watches idle with zero accumulators. -/
def freshWatch (label : String) (typeCalc : ℤ) : PerfWatch :=
  { m_label := label, m_id := 0, m_typeCalc := typeCalc, m_exclusive := true,
    m_in_parallel := false, m_is_set := true, m_is_healthy := true,
    m_started := false, m_threads_merged := false, m_startTime := 0,
    m_stopTime := 0, m_time := 0, m_count := 0, m_flop := 0,
    num_threads := 1, num_process := 1, my_rank := 0, my_thread := 0,
    my_papi := { num_events := 0, th_values := [[]], th_accumu := [[]],
                 th_v_sorted := [[0, 0, 0]], accumu := [], v_sorted := [] } }

def labEmpty : String := ""
def labA : String := "A"
def labB : String := "B"
def labC : String := "C"
def labRoot : String := "Root Section"

/-- association-list view of a `std::map<std::string,int>`:
`find` by key. -/
def mapFind (m : List (String × ℕ)) (k : String) : Option ℕ :=
  (m.find? (fun p => p.1 == k)).map (fun p => p.2)

/-- `std::map::insert(make_pair(k, v))`: a no-op when the key already
exists. -/
def mapInsert (m : List (String × ℕ)) (k : String) (v : ℕ) : List (String × ℕ) :=
  if (mapFind m k).isSome then m else m ++ [(k, v)]

/-- PerfMonitor state: the thread-local and shared section registries,
the section count, the watch array and the exclusivity construct flag
(single-process, master-thread view). -/
structure PerfMonitor where
  m_map_sections : List (String × ℕ)
  shared_map_sections : List (String × ℕ)
  m_nWatch : ℕ
  m_watchArray : List PerfWatch
  is_exclusive_construct : Bool
  num_threads : ℕ
  num_process : ℕ
  my_rank : ℕ
deriving DecidableEq, Repr

/-- PerfMonitor::find_section_object (source lines 4902-4916): the
section ID for a label, or -1 when the label is not in the thread-local
map. -/
def find_section_object (pm : PerfMonitor) (label : String) : ℤ :=
  match mapFind pm.m_map_sections label with
  | none => -1
  | some mid => mid

/-- PerfMonitor::add_section_object (source lines 4878-4891): insert
`(label, m_nWatch)` and return `mid = m_nWatch` (returned even when the
insert was a no-op). -/
def add_section_object (pm : PerfMonitor) (label : String) : PerfMonitor × ℕ :=
  ({ pm with m_map_sections := mapInsert pm.m_map_sections label pm.m_nWatch },
   pm.m_nWatch)

/-- PerfMonitor::add_shared_section (source lines 4978-4995): insert
`(label, shared_map_sections.size())` into the shared map. -/
def add_shared_section (pm : PerfMonitor) (label : String) : PerfMonitor :=
  { pm with shared_map_sections :=
      mapInsert pm.shared_map_sections label pm.shared_map_sections.length }

/-- PerfWatch::setProperties (source lines 942-1006), as called from a
serial region on the master thread: record label, id, kind, process and
thread geometry, clear `m_in_parallel`, `my_thread`, `m_threads_merged`,
and on first call adopt the global `papi` configuration and set
`m_is_set`. -/
def PerfWatch.setProps (papi0 : PapiChooser) (label : String) (id : ℤ)
    (typeCalc : ℤ) (nPEs my_rank_ID nTHREADs : ℕ) (exclusive : Bool)
    (w : PerfWatch) : PerfWatch :=
  let w := { w with m_label := label, m_id := id, m_typeCalc := typeCalc,
                    m_exclusive := exclusive, num_process := nPEs,
                    my_rank := my_rank_ID, num_threads := nTHREADs,
                    m_in_parallel := false, my_thread := 0,
                    m_threads_merged := false }
  if w.m_is_set then w else { w with my_papi := papi0, m_is_set := true }

/-- a watch slot before `setProperties` has touched it.  Modelled from
the spec: the PerfWatch constructor lives in `PerfWatch.h`, not under
src/; a fresh slot is idle, healthy and not yet configured. -/
def blankWatch : PerfWatch :=
  { freshWatch labEmpty 1 with m_is_set := false, m_exclusive := false }

/-- read slot `id` of the watch array. -/
def arrayGet (l : List PerfWatch) (id : ℕ) : PerfWatch := l.getD id blankWatch

/-- write slot `id` of the (pre-allocated) watch array, growing it by
one slot when `id` is one past the end, as `setProperties` does for a
newly created section. -/
def arraySet (l : List PerfWatch) (id : ℕ) (w : PerfWatch) : List PerfWatch :=
  if id < l.length then l.set id w else l ++ [w]

/-- PerfMonitor::setProperties (source lines 2706-2772): register the
label in both maps when new, set `is_exclusive_construct := exclusive`,
increment `m_nWatch` and configure the watch at the section's id. -/
def PerfMonitor.setProperties (papi0 : PapiChooser) (label : String)
    (typeCalc : ℤ) (exclusive : Bool) (pm : PerfMonitor) : PerfMonitor :=
  if label = "" then pm
  else
    let found := find_section_object pm label
    let pm' := if found < 0 then add_shared_section ((add_section_object pm label).1) label
               else pm
    let id : ℕ := if found < 0 then pm.m_nWatch else found.toNat
    { pm' with is_exclusive_construct := exclusive,
               m_nWatch := pm'.m_nWatch + 1,
               m_watchArray := arraySet pm'.m_watchArray id
                 (PerfWatch.setProps papi0 label (id : ℤ) typeCalc
                   pm'.num_process pm'.my_rank pm'.num_threads exclusive
                   (arrayGet pm'.m_watchArray id)) }

/-- default property arguments of `PerfMonitor::setProperties(label)` as
called from `PerfMonitor::start`.  Modelled from the spec: the defaults
are declared in `PerfMonitor.h`, not under src/; the spec has sections
default to COMPUTATION kind (`m_typeCalc = 1`) and exclusive. -/
def defaultType : ℤ := 1

/-- PerfMonitor::start (source lines 2861-2898): ignore a blank label;
create the section (with default properties) when the label is unknown;
set `is_exclusive_construct`; start the watch. -/
def PerfMonitor.start (g : HwpcGroup) (papi0 : PapiChooser) (label : String)
    (now : ℚ) (pm : PerfMonitor) : PerfMonitor × List Warning :=
  if label = "" then (pm, [Warning.blankLabel])
  else
    let pm := if find_section_object pm label < 0 then
                PerfMonitor.setProperties papi0 label defaultType true pm
              else pm
    let id : ℕ := (find_section_object pm label).toNat
    let pm := { pm with is_exclusive_construct := true }
    let w := ((arrayGet pm.m_watchArray id).start g now (fun _ _ => 0)).1
    ({ pm with m_watchArray := pm.m_watchArray.set id w }, [])

/-- PerfMonitor::stop (source lines 2909-2939): ignore a blank label;
report an unknown label and return with the state unchanged; otherwise
stop the watch, clear its exclusive flag when `is_exclusive_construct`
is down, and lower `is_exclusive_construct`. -/
def PerfMonitor.stop (g : HwpcGroup) (label : String) (now flop : ℚ)
    (iters : ℕ) (pm : PerfMonitor) : PerfMonitor × List Warning :=
  if label = "" then (pm, [Warning.blankLabel])
  else
    let found := find_section_object pm label
    if found < 0 then (pm, [Warning.unknownLabel])
    else
      let id := found.toNat
      let w := ((arrayGet pm.m_watchArray id).stop g now flop iters (fun _ _ => 0)).1
      let w := if pm.is_exclusive_construct then w else { w with m_exclusive := false }
      ({ pm with m_watchArray := pm.m_watchArray.set id w,
                 is_exclusive_construct := false }, [])

/-- PerfWatch::reset (source lines 1616-1644): zero the time, count and
flop accumulators and all HWPC accumulator arrays of the section (the
loops run over `i < num_events` and, for the per-thread arrays,
`j < num_threads`). -/
def PerfWatch.reset (w : PerfWatch) : PerfWatch :=
  let e := w.my_papi.num_events
  { w with m_time := 0, m_count := 0, m_flop := 0,
           my_papi := { w.my_papi with
             accumu := owRowQ e (fun _ => 0) w.my_papi.accumu,
             v_sorted := owRowQ e (fun _ => 0) w.my_papi.v_sorted,
             th_accumu := (List.range w.num_threads).map (fun j =>
               owRowZ e (fun _ => 0) (w.my_papi.th_accumu.getD j [])),
             th_v_sorted := (List.range w.num_threads).map (fun j =>
               owRowQ e (fun _ => 0) (w.my_papi.th_v_sorted.getD j [])) } }

/-- PerfMonitor::resetAll (source lines 2976-2989): the loop
`for (i=0; i<m_nWatch; i++) m_watchArray[i].reset();`, which starts at
index 0, the Root section. -/
def PerfMonitor.resetAll (pm : PerfMonitor) : PerfMonitor :=
  { pm with m_watchArray :=
      pm.m_watchArray.mapIdx (fun i w => if i < pm.m_nWatch then w.reset else w) }

/-- monitor-level start/stop call with its arguments. -/
inductive MEvent
  | ms (label : String) (now : ℚ)
  | mp (label : String) (now flop : ℚ) (iters : ℕ)
deriving DecidableEq, Repr

/-- label of a monitor event. -/
def MEvent.label : MEvent → String
  | .ms l _ => l
  | .mp l _ _ _ => l

/-- apply one monitor-level event, dropping the diagnostics. -/
def stepM (g : HwpcGroup) (papi0 : PapiChooser) (pm : PerfMonitor) :
    MEvent → PerfMonitor
  | .ms l t => (PerfMonitor.start g papi0 l t pm).1
  | .mp l t f i => (PerfMonitor.stop g l t f i pm).1

/-- run a sequence of monitor-level start/stop calls. -/
def runM (g : HwpcGroup) (papi0 : PapiChooser) (pm : PerfMonitor) :
    List MEvent → PerfMonitor
  | [] => pm
  | e :: tr => runM g papi0 (stepM g papi0 pm e) tr

/-! Three-phase thread merge, phase 3: PerfWatch::updateMergedThread. -/

/-- the shared `papi` structure used as a scratch area by the
three-phase merge (only `th_accumu` and `th_v_sorted` are touched). -/
structure Scratch where
  th_accumu : List (List ℤ)
  th_v_sorted : List (List ℚ)
deriving DecidableEq, Repr

/-- platform id and node-topology environment read inside
`updateMergedThread` for the A64FX BANDWIDTH apportionment. -/
structure MergeEnv where
  i_platform : ℤ
  pjm_proc_by_node : Option ℤ
  ple_rank_on_node : Option ℤ
deriving DecidableEq, Repr

/-- parse and clamp `PJM_PROC_BY_NODE` as the source does: missing or
out-of-range values fall back to 1 process per node. -/
def clampNpNode : Option ℤ → ℕ
  | none => 1
  | some v => if v < 1 ∨ 48 < v then 1 else v.toNat

/-- parse and clamp `PLE_RANK_ON_NODE`: missing or out-of-range values
fall back to rank 0. -/
def clampRankOnNode : Option ℤ → ℕ
  | none => 0
  | some v => if v < 0 ∨ 47 < v then 0 else v.toNat

/-- PerfWatch::updateMergedThread (source lines 739-928), the third
merge phase, in an OpenMP build: bail out if already merged, not the
master thread, or still started; copy the scratch area back into the
master's `my_papi`; in HWPC mode accumulate `accumu[i] = sum over
threads of th_accumu[j][i]`, overridden for the A64FX BANDWIDTH case
(`is_unit = 2`, platform 21) by the per-CMG apportionment; set
`threads_merged`; set `m_count`, `m_time`, `m_flop` to the per-thread
sums of `th_v_sorted[j][0..2]`; and zero the scratch area (user mode
touches only the first 3 columns throughout). -/
def PerfWatch.updateMergedThread (g : HwpcGroup) (env : MergeEnv)
    (w : PerfWatch) (papi : Scratch) : PerfWatch × Scratch :=
  if w.m_threads_merged then (w, papi)
  else if w.my_thread ≠ 0 then (w, papi)
  else if w.m_started then (w, papi)
  else
    let T := w.num_threads
    let E := w.my_papi.num_events
    let is_unit := statsSwitch g w.m_typeCalc
    let mypapi :=
      if 2 ≤ is_unit then
        { w.my_papi with
          th_accumu := (List.range T).map (fun j =>
            owRowZ E (fun i => get2z papi.th_accumu j i)
              (w.my_papi.th_accumu.getD j [])),
          th_v_sorted := (List.range T).map (fun j =>
            owRowQ E (fun i => get2q papi.th_v_sorted j i)
              (w.my_papi.th_v_sorted.getD j [])) }
      else
        { w.my_papi with
          th_v_sorted := (List.range T).map (fun j =>
            owRowQ 3 (fun i => get2q papi.th_v_sorted j i)
              (w.my_papi.th_v_sorted.getD j [])) }
    let mypapi :=
      if 2 ≤ is_unit then
        let acc := (List.range E).map (fun i =>
          loopSumQ T (fun j => (get2z mypapi.th_accumu j i : ℚ)))
        let acc :=
          if is_unit = 2 ∧ env.i_platform = 21 then
            let np_node := clampNpNode env.pjm_proc_by_node
            let rk := clampRankOnNode env.ple_rank_on_node
            if np_node ≤ 4 then
              let ncmg := (T - 1) / 12 + 1
              let base := (List.range E).map (fun i =>
                loopSumQ ncmg (fun k => (get2z mypapi.th_accumu (12 * k) i : ℚ)))
              if np_node = 3 ∧ 12 < T then
                (List.range E).map (fun i =>
                  base.getD i 0 + (get2z mypapi.th_accumu (T - 1) i : ℚ) * (1 / 3))
              else base
            else
              let np_share := (np_node - 1) / 4 + 1
              let ratio : ℚ := if rk % 4 ≤ (np_node - 1) % 4
                then 1 / (np_share : ℚ) else 1 / ((np_share : ℚ) - 1)
              (List.range E).map (fun i => (get2z mypapi.th_accumu 0 i : ℚ) * ratio)
          else acc
        { mypapi with accumu := acc }
      else mypapi
    let countSum := loopSumQ T (fun j => get2q mypapi.th_v_sorted j 0)
    let timeSum := loopSumQ T (fun j => get2q mypapi.th_v_sorted j 1)
    let flopSum := loopSumQ T (fun j => get2q mypapi.th_v_sorted j 2)
    let papi' :=
      if 2 ≤ is_unit then
        { th_accumu := (List.range T).map (fun j =>
            owRowZ E (fun _ => 0) (papi.th_accumu.getD j [])),
          th_v_sorted := (List.range T).map (fun j =>
            owRowQ E (fun _ => 0) (papi.th_v_sorted.getD j [])) }
      else
        { th_accumu := (List.range T).map (fun j =>
            owRowZ 3 (fun _ => 0) (papi.th_accumu.getD j [])),
          th_v_sorted := (List.range T).map (fun j =>
            owRowQ 3 (fun _ => 0) (papi.th_v_sorted.getD j [])) }
    ({ w with my_papi := mypapi, m_threads_merged := true,
              m_count := lround countSum, m_time := timeSum, m_flop := flopSum },
     papi')

/-! Cross-process statistics: PerfWatch::statsAverage. -/

/-- result fields of `statsAverage`.  The source stores
`m_time_sd = sqrt(acc/(n-1))`; the exact model keeps the radicand
(`m_time_sd_sq`), and the square root is taken in the statements. -/
structure StatsOut where
  m_time_av : ℚ
  m_flop_av : ℚ
  m_count_av : ℤ
  m_time_sd_sq : ℚ
  m_flop_sd_sq : ℚ
  m_time_comm : ℚ
deriving DecidableEq, Repr

/-- PerfWatch::statsAverage (source lines 213-256): arithmetic means of
the gathered per-process time and flop arrays; the rounded mean call
count (the source computes the same expression in both branches of its
`m_in_parallel` conditional); the sample standard deviation with
divisor `num_process - 1` only when `num_process > 1` (0 otherwise,
kept here as the radicand); and, for COMMUNICATION sections
(`m_typeCalc = 0`), the maximum time across processes. -/
def statsAverage (num_process : ℕ) (m_timeArray m_flopArray : List ℚ)
    (m_count_sum : ℤ) (m_in_parallel : Bool) (m_typeCalc : ℤ) : StatsOut :=
  let time_av := loopSumQ num_process (fun i => m_timeArray.getD i 0) / num_process
  let flop_av := loopSumQ num_process (fun i => m_flopArray.getD i 0) / num_process
  let count_av := if m_in_parallel
    then lround ((m_count_sum : ℚ) / (num_process : ℚ))
    else lround ((m_count_sum : ℚ) / (num_process : ℚ))
  let time_sd_sq :=
    if 1 < num_process then
      loopSumQ num_process (fun i =>
        (m_timeArray.getD i 0 - time_av) * (m_timeArray.getD i 0 - time_av))
        / ((num_process : ℚ) - 1)
    else 0
  let flop_sd_sq :=
    if 1 < num_process then
      loopSumQ num_process (fun i =>
        (m_flopArray.getD i 0 - flop_av) * (m_flopArray.getD i 0 - flop_av))
        / ((num_process : ℚ) - 1)
    else 0
  let time_comm :=
    if m_typeCalc = 0 then
      (List.range num_process).foldl (fun acc i =>
        if acc < m_timeArray.getD i 0 then m_timeArray.getD i 0 else acc) 0
    else 0
  ⟨time_av, flop_av, count_av, time_sd_sq, flop_sd_sq, time_comm⟩

/-! Persistence (shell mode): PerfRecord.cpp. -/

/-- the record `PerfWatch::save_pm_records` writes for one section:
the label and `m_startTime` on the header line, the thread and event
counts, and the `num_threads x num_events` counter snapshots. -/
structure SavedWatchRecord where
  label : String
  startTime : ℚ
  num_threads : ℕ
  num_events : ℕ
  th_values : List (List ℤ)
deriving DecidableEq, Repr

/-- PerfWatch::save_pm_records (PerfRecord.cpp lines 176-202). -/
def PerfWatch.save_pm_records (w : PerfWatch) : SavedWatchRecord :=
  { label := w.m_label, startTime := w.m_startTime,
    num_threads := w.num_threads, num_events := w.my_papi.num_events,
    th_values := (List.range w.num_threads).map (fun j =>
      (List.range w.my_papi.num_events).map (fun i => get2z w.my_papi.th_values j i)) }

/-- PerfWatch::load_pm_records (PerfRecord.cpp lines 205-208): the body
is the single statement `;` — nothing is read and the watch is left
unchanged. -/
def PerfWatch.load_pm_records (_ : SavedWatchRecord) (w : PerfWatch) : PerfWatch := w

/-! Report ordering: PerfMonitor::sort_m_order. -/

/-- one position of the `m_tcost`/`m_order` working arrays during the
sort.  `skip` records whether `m_watchArray[position].m_label` is empty
(the position is then passed over by both loops, and never swapped);
`tcost` and `ord` are the values currently stored at the position. -/
structure SEntry where
  skip : Bool
  tcost : ℚ
  ord : ℕ
deriving DecidableEq, Repr

/-- the inner loop `for (j=i+1; j<m_nWatch; j++)` of `sort_m_order` for
a fixed `i`: `v` is the `(tcost, order)` pair currently at position `i`;
whenever `m_tcost[i] < m_tcost[j]` (and position `j` is not skipped)
both arrays swap positions `i` and `j`.  Returns the final pair at
position `i` and the updated suffix. -/
def pass1 (v : ℚ × ℕ) : List SEntry → (ℚ × ℕ) × List SEntry
  | [] => (v, [])
  | b :: rest =>
    if b.skip then
      ((pass1 v rest).1, b :: (pass1 v rest).2)
    else if v.1 < b.tcost then
      ((pass1 (b.tcost, b.ord) rest).1,
        SEntry.mk b.skip v.1 v.2 :: (pass1 (b.tcost, b.ord) rest).2)
    else
      ((pass1 v rest).1, b :: (pass1 v rest).2)

/-- the outer loop `for (i=0; i<m_nWatch-1; i++)` of `sort_m_order`,
with the number of remaining iterations as an explicit structural
counter (`pass1` preserves the length of the suffix, so a counter equal
to the initial array length covers every iteration): positions with an
empty label are passed over; otherwise the inner loop runs on the
suffix. -/
def sortPassF : ℕ → List SEntry → List SEntry
  | 0, l => l
  | _ + 1, [] => []
  | fuel + 1, e :: rest =>
    if e.skip then e :: sortPassF fuel rest
    else
      SEntry.mk e.skip (pass1 (e.tcost, e.ord) rest).1.1 (pass1 (e.tcost, e.ord) rest).1.2
        :: sortPassF fuel (pass1 (e.tcost, e.ord) rest).2

/-- the full outer loop over all positions. -/
def sortPass (l : List SEntry) : List SEntry := sortPassF l.length l

/-- the `m_tcost` value assigned to section `i`: its mean time when its
summed call count is positive, and 0 otherwise. -/
def tcostOf (w : String × ℤ × ℚ) : ℚ := if 0 < w.2.1 then w.2.2 else 0

/-- the initial working arrays of `sort_m_order`: position `i` holds
`m_order[i] = i`, `m_tcost[i]` from section `i`, and the skip mark of
an empty label. -/
def mkEntries (watches : List (String × ℤ × ℚ)) : List SEntry :=
  (List.range watches.length).map (fun i =>
    SEntry.mk ((watches.getD i ("", 0, 0)).1 == "")
      (tcostOf (watches.getD i ("", 0, 0))) i)

/-- PerfMonitor::sort_m_order (source lines 3267-3324): initialise
`m_order[i] = i` and `m_tcost[i]` from each section's call-count sum and
mean time, then run the brute-force descending exchange sort, skipping
positions whose section label is empty; the result is the final
`m_order` array.  `watches` lists each section's
`(m_label, m_count_sum, m_time_av)` in registration order. -/
def sort_m_order (watches : List (String × ℤ × ℚ)) : List ℕ :=
  (sortPass (mkEntries watches)).map SEntry.ord

/-! Trace-level predicates and concrete states used by the claims. -/

/-- specification-side predicate: the exclusive flag of section `s` is
cleared during a monitor trace.  It mirrors what the code computes: a
stop of `s` arrives while `is_exclusive_construct` is down, where the
flag is raised by every (successful) start and lowered by every
(successful) stop. -/
def clearedB (flag : Bool) (target : String) : List MEvent → Bool
  | [] => false
  | .ms _ _ :: tr => clearedB true target tr
  | .mp l _ _ _ :: tr => (!flag && (l == target)) || clearedB false target tr

/-- whether a monitor event is a start of the given section. -/
def isStartOfB (s : String) : MEvent → Bool
  | .ms l _ => l == s
  | .mp _ _ _ _ => false

/-- whether a monitor event is a stop of the given section. -/
def isStopOfB (s : String) : MEvent → Bool
  | .ms _ _ => false
  | .mp l _ _ _ => l == s

/-- a placeholder event used as a `getD` default. -/
def dummyEvent : MEvent := MEvent.ms labEmpty 0

/-- specification-side formalisation of the claim "another section
(`other`) was both started and stopped while section `s` was active":
there are indices `i < k ≤ l < j` in the trace with a start of `s` at
`i`, its stop at `j`, and a start and a stop of `other` in between. -/
def claimWindowB (tr : List MEvent) (s other : String) : Bool :=
  (List.range tr.length).any (fun i =>
    (List.range tr.length).any (fun j =>
      isStartOfB s (tr.getD i dummyEvent) && isStopOfB s (tr.getD j dummyEvent) &&
      (List.range tr.length).any (fun k =>
        (List.range tr.length).any (fun l =>
          decide (i < k) && decide (k ≤ l) && decide (l < j) &&
          isStartOfB other (tr.getD k dummyEvent) &&
          isStopOfB other (tr.getD l dummyEvent)))))

/-- a pair of the moving `(tcost, order)` values of a sort entry. -/
def pairOf (e : SEntry) : ℚ × ℕ := (e.tcost, e.ord)

/-- all positions of the sort working arrays carry a non-empty label. -/
def noSkip (l : List SEntry) : Prop := ∀ e ∈ l, e.skip = false

/-- the watch whose state is saved in the C1 round-trip scenario:
one thread, one HWPC event with snapshot 42, started at time 3/2. -/
def savedC1 : PerfWatch :=
  { freshWatch labRoot 1 with
    m_startTime := 3/2,
    m_started := true,
    my_papi := { num_events := 1, th_values := [[42]], th_accumu := [[0]],
                 th_v_sorted := [[0, 0, 0]], accumu := [0], v_sorted := [0] } }

/-- the Root-section watch of the C5 scenario, holding accumulated
measurements. -/
def rootWatchC5 : PerfWatch :=
  { freshWatch labRoot 1 with m_count := 5, m_time := 5/2, m_flop := 7 }

/-- a monitor holding only the Root section (id 0), as right after
monitor start-up. -/
def pmC5 : PerfMonitor :=
  { m_map_sections := [(labRoot, 0)], shared_map_sections := [(labRoot, 0)],
    m_nWatch := 1, m_watchArray := [rootWatchC5], is_exclusive_construct := false,
    num_threads := 1, num_process := 1, my_rank := 0 }

/-- a monitor with two user sections A (id 0) and B (id 1) registered,
both exclusive, used by the C4 scenario. -/
def pmC4 : PerfMonitor :=
  { m_map_sections := [(labA, 0), (labB, 1)],
    shared_map_sections := [(labA, 0), (labB, 1)],
    m_nWatch := 2, m_watchArray := [freshWatch labA 1, freshWatch labB 1],
    is_exclusive_construct := false,
    num_threads := 1, num_process := 1, my_rank := 0 }

/-- the overlapping (not nested) start/stop pattern
`start A; start B; stop A; stop B`. -/
def traceC4 : List MEvent :=
  [MEvent.ms labA 0, MEvent.ms labB 1, MEvent.mp labA 2 0 1, MEvent.mp labB 3 0 1]

/-- three sections with mean times 1, 1, 2 and positive call counts:
the input on which the sort is not registration-stable on ties. -/
def watchesC8 : List (String × ℤ × ℚ) := [(labA, 1, 1), (labB, 1, 1), (labC, 1, 2)]

/-- a monitor state with `m_started` raised, for exercising a duplicate
start. -/
def startedWatchC6 : PerfWatch := { freshWatch labA 1 with m_started := true }

/-- HWPC configuration with one FLOPS event group programmed
(`statsSwitch` returns 3). -/
def flopsGroup : HwpcGroup := ⟨0, 1, 0, 0, 0, 0⟩

/-- a two-thread, three-event watch that is stopped and not yet merged:
the state on which merge phase 3 runs. -/
def watchC3 : PerfWatch :=
  { freshWatch labA 1 with
    num_threads := 2,
    my_papi := { num_events := 3, th_values := [[0, 0, 0], [0, 0, 0]],
                 th_accumu := [[0, 0, 0], [0, 0, 0]],
                 th_v_sorted := [[0, 0, 0], [0, 0, 0]],
                 accumu := [0, 0, 0], v_sorted := [0, 0, 0] } }

/-- scratch contents after merge phases 1 and 2 for `watchC3`. -/
def scratchC3 : Scratch :=
  { th_accumu := [[1, 2, 3], [4, 5, 6]], th_v_sorted := [[1, 7, 9], [2, 8, 10]] }

/-- platform/topology environment of a non-A64FX platform. -/
def envC3 : MergeEnv := { i_platform := 1, pjm_proc_by_node := none, ple_rank_on_node := none }

/-! Supporting lemmas about the list helpers. -/

/-! Lemmas about the watch-level start/stop state machine. -/

section StartStopLemmas

variable (g : HwpcGroup) (t f : ℚ) (it : ℕ) (r : ℕ → ℕ → ℤ) (w : PerfWatch)

theorem start_scalar_fields :
    (PerfWatch.start g t r w).1.m_count = w.m_count
    ∧ (PerfWatch.start g t r w).1.m_time = w.m_time
    ∧ (PerfWatch.start g t r w).1.m_flop = w.m_flop
    ∧ (PerfWatch.start g t r w).1.m_startTime = t
    ∧ (PerfWatch.start g t r w).1.m_started = true
    ∧ (PerfWatch.start g t r w).1.m_is_healthy = w.m_is_healthy
    ∧ (PerfWatch.start g t r w).1.m_typeCalc = w.m_typeCalc
    ∧ (PerfWatch.start g t r w).1.m_in_parallel = w.m_in_parallel
    ∧ (PerfWatch.start g t r w).1.m_exclusive = w.m_exclusive := by
  unfold PerfWatch.start
  dsimp only
  split_ifs <;> exact ⟨rfl, rfl, rfl, rfl, rfl, rfl, rfl, rfl, rfl⟩

theorem stop_scalar_fields :
    (PerfWatch.stop g t f it r w).1.m_count = w.m_count + 1
    ∧ (PerfWatch.stop g t f it r w).1.m_time = w.m_time + (t - w.m_startTime)
    ∧ (PerfWatch.stop g t f it r w).1.m_started = false
    ∧ (PerfWatch.stop g t f it r w).1.m_is_healthy = true
    ∧ (PerfWatch.stop g t f it r w).1.m_typeCalc = w.m_typeCalc
    ∧ (PerfWatch.stop g t f it r w).1.m_in_parallel = w.m_in_parallel
    ∧ (PerfWatch.stop g t f it r w).1.m_exclusive = w.m_exclusive := by
  unfold PerfWatch.stop
  dsimp only
  split_ifs <;> refine ⟨rfl, rfl, rfl, ?_, rfl, rfl, rfl⟩ <;> simp_all

theorem stop_user_flop (hu : statsSwitch g w.m_typeCalc = 0 ∨ statsSwitch g w.m_typeCalc = 1) :
    (PerfWatch.stop g t f it r w).1.m_flop = w.m_flop + f * (it : ℚ) := by
  have h2 : ¬ (2 ≤ statsSwitch g w.m_typeCalc) := by omega
  unfold PerfWatch.stop
  dsimp only
  split_ifs <;> rfl

theorem stop_warns_notStarted (hs : w.m_started = false) :
    (PerfWatch.stop g t f it r w).2.contains Warning.notStarted = true := by
  unfold PerfWatch.stop
  dsimp only
  rw [hs]
  cases w.m_is_healthy <;> simp

theorem start_warns_alreadyStarted (hs : w.m_started = true) :
    (PerfWatch.start g t r w).2.contains Warning.alreadyStarted = true := by
  unfold PerfWatch.start
  dsimp only
  rw [hs]
  cases w.m_is_healthy <;> cases w.m_is_set <;> simp

end StartStopLemmas

theorem stepW_m_count (g : HwpcGroup) (w : PerfWatch) (e : WEvent) :
    (stepW g w e).m_count =
      w.m_count + (match e with | .wstop _ _ _ => 1 | .wstart _ => 0) := by
  cases e with
  | wstart t => simpa using (start_scalar_fields g t (fun _ _ => 0) w).1
  | wstop t f i => simpa [stepW] using (stop_scalar_fields g t f i (fun _ _ => 0) w).1

theorem stepW_healthy (g : HwpcGroup) (w : PerfWatch) (e : WEvent)
    (h : w.m_is_healthy = true) : (stepW g w e).m_is_healthy = true := by
  cases e with
  | wstart t =>
      have := (start_scalar_fields g t (fun _ _ => 0) w).2.2.2.2.2.1
      simpa [stepW, this]
  | wstop t f i =>
      simpa [stepW] using (stop_scalar_fields g t f i (fun _ _ => 0) w).2.2.2.1

theorem runW_m_count (g : HwpcGroup) (tr : List WEvent) (w : PerfWatch) :
    (runW g w tr).m_count = w.m_count + countStops tr := by
  induction tr generalizing w with
  | nil => simp [runW, countStops]
  | cons e tr ih =>
      rw [runW, ih]
      rw [stepW_m_count]
      cases e <;> (simp [countStops]; try ring)

theorem runW_healthy (g : HwpcGroup) (tr : List WEvent) (w : PerfWatch)
    (h : w.m_is_healthy = true) : (runW g w tr).m_is_healthy = true := by
  induction tr generalizing w with
  | nil => simpa [runW]
  | cons e tr ih => exact ih _ (stepW_healthy g w e h)

/-! Monitor-level model: registries, start/stop by label, reset. -/

theorem getD_map_range {α : Type} (f : ℕ → α) (n j : ℕ) (d : α) (h : j < n) :
    ((List.range n).map f).getD j d = f j := by
  rw [List.getD_eq_getElem?_getD, List.getElem?_map, List.getElem?_range h]
  rfl

theorem owRowZ_getD (e : ℕ) (f : ℕ → ℤ) (old : List ℤ) (i : ℕ) (h : i < e) :
    (owRowZ e f old).getD i 0 = f i := by
  unfold owRowZ
  rw [List.getD_append _ _ _ _ (by simpa using h)]
  exact getD_map_range f e i 0 h

theorem owRowQ_getD (e : ℕ) (f : ℕ → ℚ) (old : List ℚ) (i : ℕ) (h : i < e) :
    (owRowQ e f old).getD i 0 = f i := by
  unfold owRowQ
  rw [List.getD_append _ _ _ _ (by simpa using h)]
  exact getD_map_range f e i 0 h

theorem loopSumQ_eq_sum (n : ℕ) (f : ℕ → ℚ) :
    loopSumQ n f = ∑ i in Finset.range n, f i := by
  have key : ∀ m : ℕ, ∀ z : ℚ,
      (List.range m).foldl (fun a j => a + f j) z = z + ∑ i in Finset.range m, f i := by
    intro m
    induction m with
    | zero => intro z; simp
    | succ m ih =>
        intro z
        rw [List.range_succ, List.foldl_append, ih, Finset.sum_range_succ]
        simp [add_assoc]
  simpa using key n 0

theorem sum_range_getD (t : List ℚ) :
    ∑ i in Finset.range t.length, t.getD i 0 = t.sum := by
  induction t with
  | nil => simp
  | cons a tl ih =>
      rw [List.length_cons, Finset.sum_range_succ']
      simp only [List.getD_cons_succ, List.getD_cons_zero, List.sum_cons]
      rw [ih]
      ring

theorem lround_intCast (z : ℤ) : lround (z : ℚ) = z := by
  have h12 : ⌊(1/2 : ℚ)⌋ = 0 := by norm_num
  unfold lround
  rcases le_or_lt 0 (z : ℚ) with h | h
  · rw [if_pos h, Int.floor_int_add, h12, add_zero]
  · rw [if_neg (not_le.mpr h)]
    have : ⌊-(z : ℚ) + 1/2⌋ = -z := by
      rw [show -(z : ℚ) = ((-z : ℤ) : ℚ) by push_cast; ring]
      rw [Int.floor_int_add, h12, add_zero]
    rw [this, neg_neg]

theorem getD_set {α : Type} (l : List α) (i j : ℕ) (w d : α) :
    (l.set i w).getD j d =
      if i = j ∧ i < l.length then w else l.getD j d := by
  rw [List.getD_eq_getElem?_getD, List.getD_eq_getElem?_getD, List.getElem?_set]
  by_cases hij : i = j
  · subst hij
    by_cases hl : i < l.length
    · simp [hl]
    · simp [hl, List.getElem?_eq_none (by omega : l.length ≤ i)]
  · simp [hij]

theorem countStops_pairsTrace (ps : List PairCall) :
    countStops (pairsTrace ps) = ps.length := by
  induction ps with
  | nil => rfl
  | cons p ps ih => simp [pairsTrace, countStops, ih]

/-! Claim theorems. -/

/-- C1: the claim says a `save_pm_records`/`load_pm_records` round trip
restores `start_time` and the per-thread event snapshots bit-exactly.
The code cannot do this: `PerfWatch::load_pm_records` has an empty body
(`{ ; }`), so the loading process's watch is returned unchanged; at the
concrete saved state `savedC1` (start time 3/2, snapshot 42) the fresh
watch keeps start time 0 and empty snapshots. -/
theorem c1_load_pm_records_is_stub :
    (∀ (r : SavedWatchRecord) (w : PerfWatch), PerfWatch.load_pm_records r w = w)
    ∧ (PerfWatch.save_pm_records savedC1).startTime = 3/2
    ∧ (PerfWatch.save_pm_records savedC1).th_values = [[42]]
    ∧ (PerfWatch.load_pm_records (PerfWatch.save_pm_records savedC1)
        (freshWatch labRoot 1)).m_startTime = 0
    ∧ (PerfWatch.load_pm_records (PerfWatch.save_pm_records savedC1)
        (freshWatch labRoot 1)).m_startTime ≠ (PerfWatch.save_pm_records savedC1).startTime
    ∧ (PerfWatch.load_pm_records (PerfWatch.save_pm_records savedC1)
        (freshWatch labRoot 1)).my_papi.th_values ≠ (PerfWatch.save_pm_records savedC1).th_values := by
  refine ⟨fun r w => rfl, rfl, rfl, rfl, ?_, ?_⟩
  · exact (by norm_num : (0 : ℚ) ≠ 3/2)
  · exact (by decide : ([[]] : List (List ℤ)) ≠ [[42]])

/-- C2 counterexample: a single unmatched `stop` on a fresh idle section
is self-corrected and still increments `m_count` to 1, although no
start/stop pair was executed — the claim's equality fails. -/
theorem c2_counterexample :
    (runW userGroup (freshWatch labA 1) [WEvent.wstop 5 0 1]).m_count = 1
    ∧ specPairsExecuted userGroup (freshWatch labA 1) [WEvent.wstop 5 0 1] = 0 := by
  constructor <;> decide

/-- C2 (amended): after any sequence of start/stop calls, `m_count`
equals its initial value plus the number of stop calls executed — every
stop increments it, matched or not; for a sequence of completed
start/stop pairs this count equals the number of pairs. -/
theorem c2_count_amended (g : HwpcGroup) (w : PerfWatch) (tr : List WEvent)
    (ps : List PairCall) :
    (runW g w tr).m_count = w.m_count + countStops tr
    ∧ (runW g w (pairsTrace ps)).m_count = w.m_count + ps.length := by
  refine ⟨runW_m_count g tr w, ?_⟩
  rw [runW_m_count, countStops_pairsTrace]

/-- C5: the claim (and the comment right above `PerfMonitor::resetAll`,
"ただしroot区間はresetされない") says the Root section is never reset,
but the loop starts at index 0, the Root section: on a monitor whose
Root watch holds count 5, time 5/2 and flop 7, `resetAll` zeroes all of
them. -/
theorem c5_resetAll_resets_root :
    rootWatchC5.m_label = labRoot
    ∧ rootWatchC5.m_count = 5 ∧ rootWatchC5.m_time = 5/2 ∧ rootWatchC5.m_flop = 7
    ∧ ((PerfMonitor.resetAll pmC5).m_watchArray.getD 0 blankWatch).m_label = labRoot
    ∧ ((PerfMonitor.resetAll pmC5).m_watchArray.getD 0 blankWatch).m_count = 0
    ∧ ((PerfMonitor.resetAll pmC5).m_watchArray.getD 0 blankWatch).m_time = 0
    ∧ ((PerfMonitor.resetAll pmC5).m_watchArray.getD 0 blankWatch).m_flop = 0 := by
  exact ⟨rfl, rfl, rfl, rfl, rfl, rfl, rfl, rfl⟩

/-- C6: a duplicate `start` on a RUNNING section emits the
already-started warning, leaves the section in the valid RUNNING state
and does not touch the healthy flag; an unmatched `stop` on an IDLE
section emits the not-started warning, is self-corrected into a
completed stop (section becomes IDLE, count and time accumulate) and
ends with the healthy flag true; and along any sequence of start/stop
calls a healthy section stays healthy. -/
theorem c6_mispair_selfcorrect (g : HwpcGroup) (w1 w2 w : PerfWatch)
    (t t' f : ℚ) (it : ℕ) (r r' : ℕ → ℕ → ℤ) (tr : List WEvent)
    (h1 : w1.m_started = true) (h2 : w2.m_started = false)
    (hh : w.m_is_healthy = true) :
    (PerfWatch.start g t r w1).2.contains Warning.alreadyStarted = true
    ∧ (PerfWatch.start g t r w1).1.m_started = true
    ∧ (PerfWatch.start g t r w1).1.m_is_healthy = w1.m_is_healthy
    ∧ (PerfWatch.stop g t' f it r' w2).2.contains Warning.notStarted = true
    ∧ (PerfWatch.stop g t' f it r' w2).1.m_started = false
    ∧ (PerfWatch.stop g t' f it r' w2).1.m_count = w2.m_count + 1
    ∧ (PerfWatch.stop g t' f it r' w2).1.m_time = w2.m_time + (t' - w2.m_startTime)
    ∧ (PerfWatch.stop g t' f it r' w2).1.m_is_healthy = true
    ∧ (runW g w tr).m_is_healthy = true := by
  obtain ⟨-, -, -, -, hstd, hhl, -, -, -⟩ := start_scalar_fields g t r w1
  obtain ⟨hc, htm, hsp, hhp, -, -, -⟩ := stop_scalar_fields g t' f it r' w2
  exact ⟨start_warns_alreadyStarted g t r w1 h1, hstd, hhl,
    stop_warns_notStarted g t' f it r' w2 h2, hsp, hc, htm, hhp,
    runW_healthy g tr w hh⟩

/-- C6 witness: the theorem instantiated on a started watch, a fresh
idle watch, and the two-event trace start-then-stop. -/
theorem c6_witness :
    (startedWatchC6.m_started = true ∧ (freshWatch labB 1).m_started = false
      ∧ (freshWatch labC 1).m_is_healthy = true)
    ∧ ((PerfWatch.start userGroup 1 (fun _ _ => 0) startedWatchC6).2.contains
          Warning.alreadyStarted = true
      ∧ (PerfWatch.start userGroup 1 (fun _ _ => 0) startedWatchC6).1.m_started = true
      ∧ (PerfWatch.start userGroup 1 (fun _ _ => 0) startedWatchC6).1.m_is_healthy
          = startedWatchC6.m_is_healthy
      ∧ (PerfWatch.stop userGroup 2 3 1 (fun _ _ => 0) (freshWatch labB 1)).2.contains
          Warning.notStarted = true
      ∧ (PerfWatch.stop userGroup 2 3 1 (fun _ _ => 0) (freshWatch labB 1)).1.m_started = false
      ∧ (PerfWatch.stop userGroup 2 3 1 (fun _ _ => 0) (freshWatch labB 1)).1.m_count
          = (freshWatch labB 1).m_count + 1
      ∧ (PerfWatch.stop userGroup 2 3 1 (fun _ _ => 0) (freshWatch labB 1)).1.m_time
          = (freshWatch labB 1).m_time + (2 - (freshWatch labB 1).m_startTime)
      ∧ (PerfWatch.stop userGroup 2 3 1 (fun _ _ => 0) (freshWatch labB 1)).1.m_is_healthy = true
      ∧ (runW userGroup (freshWatch labC 1)
          [WEvent.wstart 0, WEvent.wstop 1 0 1]).m_is_healthy = true) :=
  ⟨⟨by decide, by decide, by decide⟩,
    c6_mispair_selfcorrect userGroup startedWatchC6 (freshWatch labB 1) (freshWatch labC 1)
      1 2 3 1 (fun _ _ => 0) (fun _ _ => 0) [WEvent.wstart 0, WEvent.wstop 1 0 1]
      (by decide) (by decide) (by decide)⟩

theorem start_m_typeCalc (g : HwpcGroup) (t : ℚ) (r : ℕ → ℕ → ℤ) (w : PerfWatch) :
    (PerfWatch.start g t r w).1.m_typeCalc = w.m_typeCalc :=
  (start_scalar_fields g t r w).2.2.2.2.2.2.1

theorem stop_m_typeCalc (g : HwpcGroup) (t f : ℚ) (it : ℕ) (r : ℕ → ℕ → ℤ) (w : PerfWatch) :
    (PerfWatch.stop g t f it r w).1.m_typeCalc = w.m_typeCalc :=
  (stop_scalar_fields g t f it r w).2.2.2.2.1

theorem runPairs_user (g : HwpcGroup) (ps : List PairCall) (w : PerfWatch)
    (hu : statsSwitch g w.m_typeCalc = 0 ∨ statsSwitch g w.m_typeCalc = 1) :
    (runW g w (pairsTrace ps)).m_count = w.m_count + ps.length
    ∧ (runW g w (pairsTrace ps)).m_time = w.m_time + (ps.map (fun p => p.t2 - p.t1)).sum
    ∧ (runW g w (pairsTrace ps)).m_flop
        = w.m_flop + (ps.map (fun p => p.flop * (p.iters : ℚ))).sum := by
  induction ps generalizing w with
  | nil => simp [pairsTrace, runW]
  | cons p ps ih =>
      set w1 := (PerfWatch.start g p.t1 (fun _ _ => 0) w).1 with hw1
      set w2 := (PerfWatch.stop g p.t2 p.flop p.iters (fun _ _ => 0) w1).1 with hw2
      obtain ⟨s_count, s_time, s_flop, s_start, -, -, -, -, -⟩ :=
        start_scalar_fields g p.t1 (fun _ _ => 0) w
      obtain ⟨p_count, p_time, -, -, -, -, -⟩ :=
        stop_scalar_fields g p.t2 p.flop p.iters (fun _ _ => 0) w1
      have hty1 : w1.m_typeCalc = w.m_typeCalc := start_m_typeCalc g p.t1 (fun _ _ => 0) w
      have hty2 : w2.m_typeCalc = w.m_typeCalc := by
        rw [hw2, stop_m_typeCalc, hty1]
      have hu1 : statsSwitch g w1.m_typeCalc = 0 ∨ statsSwitch g w1.m_typeCalc = 1 := by
        rw [hty1]; exact hu
      have hu2 : statsSwitch g w2.m_typeCalc = 0 ∨ statsSwitch g w2.m_typeCalc = 1 := by
        rw [hty2]; exact hu
      have p_flop : w2.m_flop = w1.m_flop + p.flop * (p.iters : ℚ) :=
        stop_user_flop g p.t2 p.flop p.iters (fun _ _ => 0) w1 hu1
      have hrun : runW g w (pairsTrace (p :: ps)) = runW g w2 (pairsTrace ps) := rfl
      obtain ⟨ih_count, ih_time, ih_flop⟩ := ih w2 hu2
      rw [hrun]
      refine ⟨?_, ?_, ?_⟩
      · rw [ih_count, p_count, s_count, List.length_cons]
        push_cast
        ring
      · rw [ih_time, p_time, s_time, s_start, List.map_cons, List.sum_cons]
        ring
      · rw [ih_flop, p_flop, s_flop, List.map_cons, List.sum_cons]
        ring

/-- C9: a `stop(flop, iters)` adds the elapsed time `now - start_time`
to the accumulated time and increments the call count by one, and in
USER mode (`is_unit` 0 or 1, no HWPC events programmed) adds
`flop * iters` to the accumulated user flop; consequently, over any
sequence of completed start/stop pairs, the accumulated user flop is
exactly the sum of `flop_i * iters_i`, the time is the sum of the
elapsed intervals, and the count is the number of pairs. -/
theorem c9_stop_accumulation (g : HwpcGroup) (w ws : PerfWatch) (t f : ℚ)
    (it : ℕ) (r : ℕ → ℕ → ℤ) (ps : List PairCall)
    (hu : statsSwitch g w.m_typeCalc = 0 ∨ statsSwitch g w.m_typeCalc = 1)
    (hus : statsSwitch g ws.m_typeCalc = 0 ∨ statsSwitch g ws.m_typeCalc = 1) :
    (PerfWatch.stop g t f it r ws).1.m_time = ws.m_time + (t - ws.m_startTime)
    ∧ (PerfWatch.stop g t f it r ws).1.m_count = ws.m_count + 1
    ∧ (PerfWatch.stop g t f it r ws).1.m_flop = ws.m_flop + f * (it : ℚ)
    ∧ (runW g w (pairsTrace ps)).m_count = w.m_count + ps.length
    ∧ (runW g w (pairsTrace ps)).m_time = w.m_time + (ps.map (fun p => p.t2 - p.t1)).sum
    ∧ (runW g w (pairsTrace ps)).m_flop
        = w.m_flop + (ps.map (fun p => p.flop * (p.iters : ℚ))).sum := by
  obtain ⟨hc, ht, -, -, -, -, -⟩ := stop_scalar_fields g t f it r ws
  obtain ⟨rc, rt, rf⟩ := runPairs_user g ps w hu
  exact ⟨ht, hc, stop_user_flop g t f it r ws hus, rc, rt, rf⟩

/-- C9 witness: the theorem instantiated on fresh user-mode watches and
two concrete pairs. -/
theorem c9_witness :
    ((statsSwitch userGroup (freshWatch labA 1).m_typeCalc = 0
        ∨ statsSwitch userGroup (freshWatch labA 1).m_typeCalc = 1)
      ∧ (statsSwitch userGroup (freshWatch labB 1).m_typeCalc = 0
        ∨ statsSwitch userGroup (freshWatch labB 1).m_typeCalc = 1))
    ∧ ((PerfWatch.stop userGroup 9 7 2 (fun _ _ => 0) (freshWatch labB 1)).1.m_time
        = (freshWatch labB 1).m_time + (9 - (freshWatch labB 1).m_startTime)
      ∧ (PerfWatch.stop userGroup 9 7 2 (fun _ _ => 0) (freshWatch labB 1)).1.m_count
        = (freshWatch labB 1).m_count + 1
      ∧ (PerfWatch.stop userGroup 9 7 2 (fun _ _ => 0) (freshWatch labB 1)).1.m_flop
        = (freshWatch labB 1).m_flop + 7 * ((2 : ℕ) : ℚ)
      ∧ (runW userGroup (freshWatch labA 1)
          (pairsTrace [⟨0, 1, 2, 3⟩, ⟨2, 4, 5, 1⟩])).m_count
        = (freshWatch labA 1).m_count + ([⟨0, 1, 2, 3⟩, ⟨2, 4, 5, 1⟩] : List PairCall).length
      ∧ (runW userGroup (freshWatch labA 1)
          (pairsTrace [⟨0, 1, 2, 3⟩, ⟨2, 4, 5, 1⟩])).m_time
        = (freshWatch labA 1).m_time
          + (([⟨0, 1, 2, 3⟩, ⟨2, 4, 5, 1⟩] : List PairCall).map (fun p => p.t2 - p.t1)).sum
      ∧ (runW userGroup (freshWatch labA 1)
          (pairsTrace [⟨0, 1, 2, 3⟩, ⟨2, 4, 5, 1⟩])).m_flop
        = (freshWatch labA 1).m_flop
          + (([⟨0, 1, 2, 3⟩, ⟨2, 4, 5, 1⟩] : List PairCall).map
              (fun p => p.flop * (p.iters : ℚ))).sum) :=
  ⟨⟨by decide, by decide⟩,
    c9_stop_accumulation userGroup (freshWatch labA 1) (freshWatch labB 1) 9 7 2
      (fun _ _ => 0) [⟨0, 1, 2, 3⟩, ⟨2, 4, 5, 1⟩] (by decide) (by decide)⟩

theorem find_neg_iff (pm : PerfMonitor) (label : String) :
    find_section_object pm label < 0 ↔ mapFind pm.m_map_sections label = none := by
  unfold find_section_object
  cases h : mapFind pm.m_map_sections label with
  | none => simp
  | some mid => simp

theorem mapFind_append_self (m : List (String × ℕ)) (k : String) (v : ℕ)
    (h : mapFind m k = none) : mapFind (m ++ [(k, v)]) k = some v := by
  unfold mapFind at *
  rw [List.find?_append]
  have h0 : m.find? (fun p => p.1 == k) = none := by
    cases hf : m.find? (fun p => p.1 == k) with
    | none => rfl
    | some p => rw [hf] at h; simp at h
  rw [h0]
  simp

/-- C10: a `stop(label)` with a non-empty label that was never
registered prints the unknown-label diagnostic and returns the whole
monitor state unchanged (watch array, accumulators and both registries
untouched), whereas a `start(label)` with an unknown label creates the
section: the registry gains the label with id `m_nWatch` and the
section count grows by one. -/
theorem c10_unknown_label (g : HwpcGroup) (papi0 : PapiChooser)
    (pm : PerfMonitor) (label : String) (t t' f : ℚ) (it : ℕ)
    (hne : ¬ label = "") (hun : find_section_object pm label < 0) :
    (PerfMonitor.stop g label t' f it pm).1 = pm
    ∧ (PerfMonitor.stop g label t' f it pm).2 = [Warning.unknownLabel]
    ∧ (PerfMonitor.start g papi0 label t pm).1.m_nWatch = pm.m_nWatch + 1
    ∧ mapFind (PerfMonitor.start g papi0 label t pm).1.m_map_sections label
        = some pm.m_nWatch
    ∧ find_section_object (PerfMonitor.start g papi0 label t pm).1 label
        = (pm.m_nWatch : ℤ) := by
  have hn : mapFind pm.m_map_sections label = none := (find_neg_iff pm label).mp hun
  have hmap : (PerfMonitor.start g papi0 label t pm).1.m_map_sections
      = pm.m_map_sections ++ [(label, pm.m_nWatch)] := by
    simp [PerfMonitor.start, PerfMonitor.setProperties, hne, hun,
      add_shared_section, add_section_object, mapInsert, hn]
  have hfind : mapFind (PerfMonitor.start g papi0 label t pm).1.m_map_sections label
      = some pm.m_nWatch := by
    rw [hmap]; exact mapFind_append_self pm.m_map_sections label pm.m_nWatch hn
  refine ⟨?_, ?_, ?_, hfind, ?_⟩
  · simp [PerfMonitor.stop, hne, hun]
  · simp [PerfMonitor.stop, hne, hun]
  · simp [PerfMonitor.start, PerfMonitor.setProperties, hne, hun,
      add_shared_section, add_section_object]
  · unfold find_section_object
    rw [hfind]

/-- C10 witness: the theorem instantiated on the Root-only monitor and
a label never registered there. -/
theorem c10_witness :
    (¬ labA = "" ∧ find_section_object pmC5 labA < 0)
    ∧ ((PerfMonitor.stop userGroup labA 2 0 1 pmC5).1 = pmC5
      ∧ (PerfMonitor.stop userGroup labA 2 0 1 pmC5).2 = [Warning.unknownLabel]
      ∧ (PerfMonitor.start userGroup (freshWatch labA 1).my_papi labA 1 pmC5).1.m_nWatch
          = pmC5.m_nWatch + 1
      ∧ mapFind (PerfMonitor.start userGroup (freshWatch labA 1).my_papi labA 1
            pmC5).1.m_map_sections labA = some pmC5.m_nWatch
      ∧ find_section_object (PerfMonitor.start userGroup (freshWatch labA 1).my_papi labA 1
            pmC5).1 labA = (pmC5.m_nWatch : ℤ)) :=
  ⟨⟨by decide, by decide⟩,
    c10_unknown_label userGroup (freshWatch labA 1).my_papi pmC5 labA 1 2 0 1
      (by decide) (by decide)⟩

theorem foldl_range_getD (op : ℚ → ℚ → ℚ) (t : List ℚ) (z : ℚ) :
    (List.range t.length).foldl (fun a i => op a (t.getD i 0)) z = t.foldl op z := by
  induction t generalizing z with
  | nil => rfl
  | cons a tl ih =>
      rw [List.length_cons, List.range_succ_eq_map, List.foldl_cons, List.foldl_map]
      simp only [List.getD_cons_succ, List.getD_cons_zero, List.foldl_cons]
      exact ih (op z a)

theorem sum_range_getD_map (h : ℚ → ℚ) (t : List ℚ) :
    ∑ i in Finset.range t.length, h (t.getD i 0) = (t.map h).sum := by
  induction t with
  | nil => simp
  | cons a tl ih =>
      rw [List.length_cons, Finset.sum_range_succ']
      simp only [List.getD_cons_succ, List.getD_cons_zero, List.map_cons, List.sum_cons]
      rw [ih]
      ring

theorem loopSum_getD_eq_sum (t : List ℚ) :
    loopSumQ t.length (fun i => t.getD i 0) = t.sum := by
  rw [loopSumQ_eq_sum]
  exact sum_range_getD t

theorem listMax_ge_init (t : List ℚ) (z : ℚ) :
    z ≤ t.foldl (fun a x => if a < x then x else a) z := by
  induction t generalizing z with
  | nil => simp
  | cons a tl ih =>
      rw [List.foldl_cons]
      refine le_trans ?_ (ih (if z < a then a else z))
      split_ifs with h
      · exact le_of_lt h
      · exact le_refl z

theorem listMax_ge_mem (t : List ℚ) (z : ℚ) :
    ∀ x ∈ t, x ≤ t.foldl (fun a x => if a < x then x else a) z := by
  induction t generalizing z with
  | nil => intro x hx; cases hx
  | cons a tl ih =>
      intro x hx
      rw [List.foldl_cons]
      rcases List.mem_cons.mp hx with rfl | hx
      · refine le_trans ?_ (listMax_ge_init tl (if z < x then x else z))
        split_ifs with h
        · exact le_refl x
        · exact le_of_not_lt h
      · exact ih (if z < a then a else z) x hx

theorem listMax_mem_or (t : List ℚ) (z : ℚ) :
    t.foldl (fun a x => if a < x then x else a) z ∈ t
      ∨ t.foldl (fun a x => if a < x then x else a) z = z := by
  induction t generalizing z with
  | nil => exact Or.inr rfl
  | cons a tl ih =>
      rw [List.foldl_cons]
      rcases ih (if z < a then a else z) with h | h
      · exact Or.inl (List.mem_cons_of_mem a h)
      · rw [h]
        split_ifs with hza
        · exact Or.inl (List.mem_cons_self a tl)
        · exact Or.inr rfl

theorem lround_near (q : ℚ) : |((lround q : ℤ) : ℚ) - q| ≤ 1/2 := by
  have key : ∀ r : ℚ, |((⌊r + 1/2⌋ : ℤ) : ℚ) - r| ≤ 1/2 := by
    intro r
    have h1 : ((⌊r + 1/2⌋ : ℤ) : ℚ) ≤ r + 1/2 := Int.floor_le _
    have h2 : r + 1/2 - 1 < ((⌊r + 1/2⌋ : ℤ) : ℚ) := Int.sub_one_lt_floor _
    rw [abs_le]
    constructor <;> linarith
  unfold lround
  rcases le_or_lt 0 q with h | h
  · rw [if_pos h]; exact key q
  · rw [if_neg (not_le.mpr h)]
    have hneg : ((-(⌊-q + 1/2⌋) : ℤ) : ℚ) - q = -(((⌊-q + 1/2⌋ : ℤ) : ℚ) - (-q)) := by
      push_cast; ring
    rw [hneg, abs_neg]
    exact key (-q)

/-- C7: over the gathered per-process arrays (lengths `num_process`),
`statsAverage` computes the arithmetic means of time and flop over
`num_process`; the mean call count rounded to the nearest integer
(within 1/2 of the exact mean); the sample standard deviation radicands
with divisor `num_process - 1` exactly when `num_process > 1` and 0
otherwise (the source stores their square roots); and, for
COMMUNICATION sections (`m_typeCalc = 0`) only, the maximum time across
processes, with 0 for COMPUTATION sections. -/
theorem c7_statsAverage_ok (n : ℕ) (t fl : List ℚ) (cs : ℤ) (ip : Bool) (tc : ℤ)
    (hlt : t.length = n) (hlf : fl.length = n) :
    (statsAverage n t fl cs ip tc).m_time_av = t.sum / (n : ℚ)
    ∧ (statsAverage n t fl cs ip tc).m_flop_av = fl.sum / (n : ℚ)
    ∧ (statsAverage n t fl cs ip tc).m_count_av = lround ((cs : ℚ) / (n : ℚ))
    ∧ |((statsAverage n t fl cs ip tc).m_count_av : ℚ) - (cs : ℚ) / (n : ℚ)| ≤ 1/2
    ∧ (statsAverage n t fl cs ip tc).m_time_sd_sq
        = (if 1 < n then
            (∑ i in Finset.range n,
              (t.getD i 0 - t.sum / (n : ℚ)) * (t.getD i 0 - t.sum / (n : ℚ)))
              / ((n : ℚ) - 1)
           else 0)
    ∧ (statsAverage n t fl cs ip tc).m_flop_sd_sq
        = (if 1 < n then
            (∑ i in Finset.range n,
              (fl.getD i 0 - fl.sum / (n : ℚ)) * (fl.getD i 0 - fl.sum / (n : ℚ)))
              / ((n : ℚ) - 1)
           else 0)
    ∧ Real.sqrt ((statsAverage n t fl cs ip tc).m_time_sd_sq : ℝ)
        = (if 1 < n then
            Real.sqrt (((∑ i in Finset.range n,
              (t.getD i 0 - t.sum / (n : ℚ)) * (t.getD i 0 - t.sum / (n : ℚ)))
              / ((n : ℚ) - 1) : ℚ))
           else 0)
    ∧ (tc = 0 →
        (∀ x ∈ t, x ≤ (statsAverage n t fl cs ip tc).m_time_comm)
        ∧ 0 ≤ (statsAverage n t fl cs ip tc).m_time_comm
        ∧ ((statsAverage n t fl cs ip tc).m_time_comm ∈ t
            ∨ (statsAverage n t fl cs ip tc).m_time_comm = 0))
    ∧ (¬ tc = 0 → (statsAverage n t fl cs ip tc).m_time_comm = 0) := by
  subst hlt
  have havt : loopSumQ t.length (fun i => t.getD i 0) = t.sum := loopSum_getD_eq_sum t
  have havf : loopSumQ t.length (fun i => fl.getD i 0) = fl.sum := by
    rw [← hlf]
    exact loopSum_getD_eq_sum fl
  unfold statsAverage
  dsimp only
  rw [havt]
  rw [show loopSumQ t.length (fun i => fl.getD i 0) = fl.sum from havf]
  have hmaxeq : (List.range t.length).foldl
      (fun acc i => if acc < t.getD i 0 then t.getD i 0 else acc) 0
      = t.foldl (fun a x => if a < x then x else a) 0 :=
    foldl_range_getD (fun a x => if a < x then x else a) t 0
  refine ⟨rfl, rfl, by cases ip <;> rfl, ?_, ?_, ?_, ?_, ?_, ?_⟩
  · cases ip <;> exact lround_near ((cs : ℚ) / (t.length : ℚ))
  · rw [loopSumQ_eq_sum]
  · rw [loopSumQ_eq_sum]
  · rw [loopSumQ_eq_sum]
    split_ifs with h
    · rfl
    · simp
  · intro htc
    rw [if_pos htc, hmaxeq]
    exact ⟨listMax_ge_mem t 0, listMax_ge_init t 0, listMax_mem_or t 0⟩
  · intro htc
    rw [if_neg htc]

/-- C7 witness: the theorem instantiated on two processes with times
`[1, 3]`, flops `[2, 4]`, call-count sum 5, COMMUNICATION kind. -/
theorem c7_witness :
    (([1, 3] : List ℚ).length = 2 ∧ ([2, 4] : List ℚ).length = 2)
    ∧ ((statsAverage 2 [1, 3] [2, 4] 5 false 0).m_time_av
        = ([1, 3] : List ℚ).sum / (2 : ℚ)
      ∧ (statsAverage 2 [1, 3] [2, 4] 5 false 0).m_flop_av
        = ([2, 4] : List ℚ).sum / (2 : ℚ)
      ∧ (statsAverage 2 [1, 3] [2, 4] 5 false 0).m_count_av
        = lround ((5 : ℚ) / (2 : ℚ))
      ∧ |((statsAverage 2 [1, 3] [2, 4] 5 false 0).m_count_av : ℚ) - (5 : ℚ) / (2 : ℚ)| ≤ 1/2
      ∧ (statsAverage 2 [1, 3] [2, 4] 5 false 0).m_time_sd_sq
        = (if 1 < 2 then
            (∑ i in Finset.range 2,
              (([1, 3] : List ℚ).getD i 0 - ([1, 3] : List ℚ).sum / (2 : ℚ))
                * (([1, 3] : List ℚ).getD i 0 - ([1, 3] : List ℚ).sum / (2 : ℚ)))
              / ((2 : ℚ) - 1)
           else 0)
      ∧ (statsAverage 2 [1, 3] [2, 4] 5 false 0).m_flop_sd_sq
        = (if 1 < 2 then
            (∑ i in Finset.range 2,
              (([2, 4] : List ℚ).getD i 0 - ([2, 4] : List ℚ).sum / (2 : ℚ))
                * (([2, 4] : List ℚ).getD i 0 - ([2, 4] : List ℚ).sum / (2 : ℚ)))
              / ((2 : ℚ) - 1)
           else 0)
      ∧ Real.sqrt ((statsAverage 2 [1, 3] [2, 4] 5 false 0).m_time_sd_sq : ℝ)
        = (if 1 < 2 then
            Real.sqrt (((∑ i in Finset.range 2,
              (([1, 3] : List ℚ).getD i 0 - ([1, 3] : List ℚ).sum / (2 : ℚ))
                * (([1, 3] : List ℚ).getD i 0 - ([1, 3] : List ℚ).sum / (2 : ℚ)))
              / ((2 : ℚ) - 1) : ℚ))
           else 0)
      ∧ ((0 : ℤ) = 0 →
          (∀ x ∈ ([1, 3] : List ℚ),
            x ≤ (statsAverage 2 [1, 3] [2, 4] 5 false 0).m_time_comm)
          ∧ 0 ≤ (statsAverage 2 [1, 3] [2, 4] 5 false 0).m_time_comm
          ∧ ((statsAverage 2 [1, 3] [2, 4] 5 false 0).m_time_comm ∈ ([1, 3] : List ℚ)
              ∨ (statsAverage 2 [1, 3] [2, 4] 5 false 0).m_time_comm = 0))
      ∧ (¬ (0 : ℤ) = 0 → (statsAverage 2 [1, 3] [2, 4] 5 false 0).m_time_comm = 0)) :=
  ⟨⟨by decide, by decide⟩,
    c7_statsAverage_ok 2 [1, 3] [2, 4] 5 false 0 (by decide) (by decide)⟩

/-- C3: on a stopped, not-yet-merged section, run by the master thread,
in HWPC mode and outside the A64FX BANDWIDTH special case,
`updateMergedThread` copies the scratch area back into the master's
Watch (`th_accumu` and `th_v_sorted`), computes `accumu[i]` as the sum
over threads of `th_accumu[j][i]` (the claim's per-CMG apportionment
carve-out is the excluded A64FX case), sets the call count, accumulated
time and user flop to the per-thread sums of `th_v_sorted[j][0]`, `[1]`
and `[2]` (the call-count sum passes through `lround`, exact when the
stored counts are integers), sets `threads_merged`, and zeroes the
scratch area. -/
theorem c3_updateMergedThread_ok (g : HwpcGroup) (env : MergeEnv)
    (w : PerfWatch) (papi : Scratch)
    (hm : w.m_threads_merged = false) (ht : w.my_thread = 0)
    (hs : w.m_started = false)
    (hu : 2 ≤ statsSwitch g w.m_typeCalc)
    (hA : ¬ (statsSwitch g w.m_typeCalc = 2 ∧ env.i_platform = 21))
    (hE : 3 ≤ w.my_papi.num_events)
    (hint : ∀ j, ∃ z : ℤ, get2q papi.th_v_sorted j 0 = (z : ℚ)) :
    (∀ j, j < w.num_threads → ∀ i, i < w.my_papi.num_events →
        get2z (PerfWatch.updateMergedThread g env w papi).1.my_papi.th_accumu j i
          = get2z papi.th_accumu j i)
    ∧ (∀ j, j < w.num_threads → ∀ i, i < w.my_papi.num_events →
        get2q (PerfWatch.updateMergedThread g env w papi).1.my_papi.th_v_sorted j i
          = get2q papi.th_v_sorted j i)
    ∧ (∀ i, i < w.my_papi.num_events →
        (PerfWatch.updateMergedThread g env w papi).1.my_papi.accumu.getD i 0
          = ∑ j in Finset.range w.num_threads, (get2z papi.th_accumu j i : ℚ))
    ∧ (((PerfWatch.updateMergedThread g env w papi).1.m_count : ℚ)
        = ∑ j in Finset.range w.num_threads, get2q papi.th_v_sorted j 0)
    ∧ ((PerfWatch.updateMergedThread g env w papi).1.m_time
        = ∑ j in Finset.range w.num_threads, get2q papi.th_v_sorted j 1)
    ∧ ((PerfWatch.updateMergedThread g env w papi).1.m_flop
        = ∑ j in Finset.range w.num_threads, get2q papi.th_v_sorted j 2)
    ∧ (PerfWatch.updateMergedThread g env w papi).1.m_threads_merged = true
    ∧ (∀ j, j < w.num_threads → ∀ i, i < w.my_papi.num_events →
        get2z (PerfWatch.updateMergedThread g env w papi).2.th_accumu j i = 0
        ∧ get2q (PerfWatch.updateMergedThread g env w papi).2.th_v_sorted j i = 0) := by
  have h2 : ¬ (2 ≤ statsSwitch g w.m_typeCalc) = False := by simp [hu]
  unfold PerfWatch.updateMergedThread
  rw [hm, ht, hs]
  simp only [Bool.false_eq_true, if_false, ne_eq, not_true_eq_false, ite_false,
    not_false_eq_true, ite_true]
  rw [if_pos hu, if_pos hu, if_pos hu, if_neg hA]
  dsimp only
  have hcopyZ : ∀ j, j < w.num_threads → ∀ i, i < w.my_papi.num_events →
      get2z ((List.range w.num_threads).map (fun j =>
        owRowZ w.my_papi.num_events (fun i => get2z papi.th_accumu j i)
          (w.my_papi.th_accumu.getD j []))) j i = get2z papi.th_accumu j i := by
    intro j hj i hi
    unfold get2z
    rw [getD_map_range _ _ _ _ hj]
    exact owRowZ_getD _ _ _ _ hi
  have hcopyQ : ∀ j, j < w.num_threads → ∀ i, i < w.my_papi.num_events →
      get2q ((List.range w.num_threads).map (fun j =>
        owRowQ w.my_papi.num_events (fun i => get2q papi.th_v_sorted j i)
          (w.my_papi.th_v_sorted.getD j []))) j i = get2q papi.th_v_sorted j i := by
    intro j hj i hi
    unfold get2q
    rw [getD_map_range _ _ _ _ hj]
    exact owRowQ_getD _ _ _ _ hi
  have hvcol : ∀ c, c < 3 → ∀ j, j < w.num_threads →
      get2q ((List.range w.num_threads).map (fun j =>
        owRowQ w.my_papi.num_events (fun i => get2q papi.th_v_sorted j i)
          (w.my_papi.th_v_sorted.getD j []))) j c = get2q papi.th_v_sorted j c := by
    intro c hc j hj
    exact hcopyQ j hj c (lt_of_lt_of_le hc hE)
  have hsum : ∀ c, c < 3 →
      loopSumQ w.num_threads (fun j =>
        get2q ((List.range w.num_threads).map (fun j =>
          owRowQ w.my_papi.num_events (fun i => get2q papi.th_v_sorted j i)
            (w.my_papi.th_v_sorted.getD j []))) j c)
        = ∑ j in Finset.range w.num_threads, get2q papi.th_v_sorted j c := by
    intro c hc
    rw [loopSumQ_eq_sum]
    refine Finset.sum_congr rfl (fun j hj => ?_)
    exact hvcol c hc j (Finset.mem_range.mp hj)
  refine ⟨hcopyZ, hcopyQ, ?_, ?_, ?_, ?_, trivial, ?_⟩
  · intro i hi
    rw [getD_map_range _ _ _ _ hi, loopSumQ_eq_sum]
    refine Finset.sum_congr rfl (fun j hj => ?_)
    rw [hcopyZ j (Finset.mem_range.mp hj) i hi]
  · choose zf hzf using hint
    rw [hsum 0 (by norm_num)]
    have : ∑ j in Finset.range w.num_threads, get2q papi.th_v_sorted j 0
        = ((∑ j in Finset.range w.num_threads, zf j : ℤ) : ℚ) := by
      rw [Int.cast_sum]
      exact Finset.sum_congr rfl (fun j _ => hzf j)
    rw [this, lround_intCast]
  · exact hsum 1 (by norm_num)
  · exact hsum 2 (by norm_num)
  · intro j hj i hi
    constructor
    · unfold get2z
      rw [getD_map_range _ _ _ _ hj]
      exact owRowZ_getD _ _ _ _ hi
    · unfold get2q
      rw [getD_map_range _ _ _ _ hj]
      exact owRowQ_getD _ _ _ _ hi

/-- C3 witness: the theorem instantiated on the two-thread three-event
watch `watchC3` with scratch contents `scratchC3` on a non-A64FX
platform. -/
theorem c3_witness :
    (watchC3.m_threads_merged = false ∧ watchC3.my_thread = 0
      ∧ watchC3.m_started = false
      ∧ 2 ≤ statsSwitch flopsGroup watchC3.m_typeCalc
      ∧ ¬ (statsSwitch flopsGroup watchC3.m_typeCalc = 2 ∧ envC3.i_platform = 21)
      ∧ 3 ≤ watchC3.my_papi.num_events
      ∧ ∀ j, ∃ z : ℤ, get2q scratchC3.th_v_sorted j 0 = (z : ℚ))
    ∧ ((∀ j, j < watchC3.num_threads → ∀ i, i < watchC3.my_papi.num_events →
        get2z (PerfWatch.updateMergedThread flopsGroup envC3 watchC3
          scratchC3).1.my_papi.th_accumu j i = get2z scratchC3.th_accumu j i)
      ∧ (∀ j, j < watchC3.num_threads → ∀ i, i < watchC3.my_papi.num_events →
        get2q (PerfWatch.updateMergedThread flopsGroup envC3 watchC3
          scratchC3).1.my_papi.th_v_sorted j i = get2q scratchC3.th_v_sorted j i)
      ∧ (∀ i, i < watchC3.my_papi.num_events →
        (PerfWatch.updateMergedThread flopsGroup envC3 watchC3
          scratchC3).1.my_papi.accumu.getD i 0
          = ∑ j in Finset.range watchC3.num_threads, (get2z scratchC3.th_accumu j i : ℚ))
      ∧ (((PerfWatch.updateMergedThread flopsGroup envC3 watchC3 scratchC3).1.m_count : ℚ)
          = ∑ j in Finset.range watchC3.num_threads, get2q scratchC3.th_v_sorted j 0)
      ∧ ((PerfWatch.updateMergedThread flopsGroup envC3 watchC3 scratchC3).1.m_time
          = ∑ j in Finset.range watchC3.num_threads, get2q scratchC3.th_v_sorted j 1)
      ∧ ((PerfWatch.updateMergedThread flopsGroup envC3 watchC3 scratchC3).1.m_flop
          = ∑ j in Finset.range watchC3.num_threads, get2q scratchC3.th_v_sorted j 2)
      ∧ (PerfWatch.updateMergedThread flopsGroup envC3 watchC3
          scratchC3).1.m_threads_merged = true
      ∧ (∀ j, j < watchC3.num_threads → ∀ i, i < watchC3.my_papi.num_events →
        get2z (PerfWatch.updateMergedThread flopsGroup envC3 watchC3
          scratchC3).2.th_accumu j i = 0
        ∧ get2q (PerfWatch.updateMergedThread flopsGroup envC3 watchC3
          scratchC3).2.th_v_sorted j i = 0)) :=
  have hint : ∀ j, ∃ z : ℤ, get2q scratchC3.th_v_sorted j 0 = (z : ℚ) := by
    intro j
    match j with
    | 0 => exact ⟨1, by decide⟩
    | 1 => exact ⟨2, by decide⟩
    | n + 2 => exact ⟨0, rfl⟩
  ⟨⟨rfl, rfl, rfl, by decide, by decide, by decide, hint⟩,
    c3_updateMergedThread_ok flopsGroup envC3 watchC3 scratchC3
      rfl rfl rfl (by decide) (by decide) (by decide) hint⟩

theorem pass1_length (v : ℚ × ℕ) (l : List SEntry) :
    (pass1 v l).2.length = l.length := by
  induction l generalizing v with
  | nil => rfl
  | cons b rest ih =>
      unfold pass1
      split_ifs <;> simp [ih]

theorem pass1_perm (v : ℚ × ℕ) (l : List SEntry) :
    List.Perm ((pass1 v l).1 :: (pass1 v l).2.map pairOf) (v :: l.map pairOf) := by
  induction l generalizing v with
  | nil => exact List.Perm.refl _
  | cons b rest ih =>
      unfold pass1
      split_ifs with hskip hlt <;> dsimp only [List.map_cons]
      · exact ((List.Perm.swap _ _ _).trans ((ih v).cons (pairOf b))).trans
          (List.Perm.swap _ _ _)
      · have hb : pairOf (SEntry.mk b.skip v.1 v.2) = v := rfl
        rw [hb]
        exact (List.Perm.swap _ _ _).trans ((ih (b.tcost, b.ord)).cons v)
      · exact ((List.Perm.swap _ _ _).trans ((ih v).cons (pairOf b))).trans
          (List.Perm.swap _ _ _)

theorem pass1_max (v : ℚ × ℕ) (l : List SEntry) (hns : noSkip l) :
    v.1 ≤ (pass1 v l).1.1 ∧ ∀ e ∈ (pass1 v l).2, e.tcost ≤ (pass1 v l).1.1 := by
  induction l generalizing v with
  | nil => exact ⟨le_refl _, fun e he => absurd he (List.not_mem_nil e)⟩
  | cons b rest ih =>
      have hb : b.skip = false := hns b (List.mem_cons_self b rest)
      have hns' : noSkip rest := fun e he => hns e (List.mem_cons_of_mem b he)
      unfold pass1
      rw [if_neg (by rw [hb]; exact Bool.false_ne_true)]
      split_ifs with hlt
      · obtain ⟨h1, h2⟩ := ih (b.tcost, b.ord) hns'
        refine ⟨le_trans (le_of_lt hlt) h1, ?_⟩
        intro e he
        rcases List.mem_cons.mp he with rfl | he
        · exact le_trans (le_of_lt hlt) h1
        · exact h2 e he
      · obtain ⟨h1, h2⟩ := ih v hns'
        refine ⟨h1, ?_⟩
        intro e he
        rcases List.mem_cons.mp he with rfl | he
        · exact le_trans (le_of_not_lt hlt) h1
        · exact h2 e he

theorem pass1_noSkip (v : ℚ × ℕ) (l : List SEntry) (hns : noSkip l) :
    noSkip (pass1 v l).2 := by
  induction l generalizing v with
  | nil => exact fun e he => absurd he (List.not_mem_nil e)
  | cons b rest ih =>
      have hb : b.skip = false := hns b (List.mem_cons_self b rest)
      have hns' : noSkip rest := fun e he => hns e (List.mem_cons_of_mem b he)
      unfold pass1
      rw [if_neg (by rw [hb]; exact Bool.false_ne_true)]
      split_ifs with hlt
      · intro e he
        rcases List.mem_cons.mp he with rfl | he
        · exact hb
        · exact ih (b.tcost, b.ord) hns' e he
      · intro e he
        rcases List.mem_cons.mp he with rfl | he
        · exact hb
        · exact ih v hns' e he

theorem sortPassF_perm (fuel : ℕ) (l : List SEntry) (hf : l.length ≤ fuel) :
    List.Perm ((sortPassF fuel l).map pairOf) (l.map pairOf) := by
  induction fuel generalizing l with
  | zero => rw [sortPassF]
  | succ fuel ih =>
      match l with
      | [] => rw [sortPassF]
      | e :: rest =>
          rw [sortPassF]
          split_ifs with hskip
          · exact (ih rest (by simpa using hf)).cons _
          · dsimp only [List.map_cons]
            have hrest : (pass1 (e.tcost, e.ord) rest).2.length ≤ fuel := by
              rw [pass1_length]
              simpa using hf
            have hhd : pairOf (SEntry.mk e.skip (pass1 (e.tcost, e.ord) rest).1.1
                (pass1 (e.tcost, e.ord) rest).1.2) = (pass1 (e.tcost, e.ord) rest).1 := rfl
            rw [hhd]
            exact ((ih _ hrest).cons _).trans (pass1_perm (e.tcost, e.ord) rest)

theorem sortPass_perm (l : List SEntry) :
    List.Perm ((sortPass l).map pairOf) (l.map pairOf) :=
  sortPassF_perm l.length l (le_refl _)

theorem mem_map_tcost_of_perm {l l' : List SEntry}
    (h : List.Perm (l.map pairOf) (l'.map pairOf)) {x : ℚ}
    (hx : x ∈ l.map SEntry.tcost) : x ∈ l'.map SEntry.tcost := by
  obtain ⟨y, hy, rfl⟩ := List.mem_map.mp hx
  have hy' : pairOf y ∈ l'.map pairOf := h.subset (List.mem_map_of_mem pairOf hy)
  obtain ⟨z, hz, hzeq⟩ := List.mem_map.mp hy'
  have : z.tcost = y.tcost := congrArg Prod.fst hzeq
  rw [← this]
  exact List.mem_map_of_mem SEntry.tcost hz

theorem sortPassF_noSkip (fuel : ℕ) (l : List SEntry) (hns : noSkip l) :
    noSkip (sortPassF fuel l) := by
  induction fuel generalizing l with
  | zero => rw [sortPassF]; exact hns
  | succ fuel ih =>
      match l with
      | [] => rw [sortPassF]; exact hns
      | e :: rest =>
          have he : e.skip = false := hns e (List.mem_cons_self e rest)
          have hns' : noSkip rest := fun y hy => hns y (List.mem_cons_of_mem e hy)
          rw [sortPassF]
          split_ifs with hskip
          · intro x hx
            rcases List.mem_cons.mp hx with rfl | hx
            · exact he
            · exact ih rest hns' x hx
          · intro x hx
            rcases List.mem_cons.mp hx with rfl | hx
            · exact he
            · exact ih _ (pass1_noSkip (e.tcost, e.ord) rest hns') x hx

theorem sortPassF_sorted (fuel : ℕ) (l : List SEntry) (hf : l.length ≤ fuel)
    (hns : noSkip l) :
    List.Sorted (fun a b : ℚ => b ≤ a) ((sortPassF fuel l).map SEntry.tcost) := by
  induction fuel generalizing l with
  | zero =>
      rw [sortPassF]
      have : l = [] := List.length_eq_zero.mp (Nat.le_zero.mp hf)
      rw [this]
      exact List.sorted_nil
  | succ fuel ih =>
      match l with
      | [] => rw [sortPassF]; exact List.sorted_nil
      | e :: rest =>
          have he : e.skip = false := hns e (List.mem_cons_self e rest)
          have hns' : noSkip rest := fun y hy => hns y (List.mem_cons_of_mem e hy)
          have hlen : rest.length ≤ fuel := by simpa using hf
          rw [sortPassF, if_neg (by rw [he]; exact Bool.false_ne_true)]
          dsimp only [List.map_cons]
          rw [List.sorted_cons]
          constructor
          · intro x hx
            have hrest : (pass1 (e.tcost, e.ord) rest).2.length ≤ fuel := by
              rw [pass1_length]; exact hlen
            have hx' : x ∈ (pass1 (e.tcost, e.ord) rest).2.map SEntry.tcost :=
              mem_map_tcost_of_perm (sortPassF_perm fuel _ hrest) hx
            obtain ⟨y, hy, rfl⟩ := List.mem_map.mp hx'
            exact (pass1_max (e.tcost, e.ord) rest hns').2 y hy
          · have hrest : (pass1 (e.tcost, e.ord) rest).2.length ≤ fuel := by
              rw [pass1_length]; exact hlen
            exact ih _ hrest (pass1_noSkip (e.tcost, e.ord) rest hns')

theorem sortPass_sorted (l : List SEntry) (hns : noSkip l) :
    List.Sorted (fun a b : ℚ => b ≤ a) ((sortPass l).map SEntry.tcost) :=
  sortPassF_sorted l.length l (le_refl _) hns

theorem mkEntries_noSkip (watches : List (String × ℤ × ℚ))
    (hne : ∀ p ∈ watches, ¬ p.1 = "") : noSkip (mkEntries watches) := by
  intro e he
  obtain ⟨i, hi, rfl⟩ := List.mem_map.mp he
  have hi' : i < watches.length := List.mem_range.mp hi
  have hmem : watches.getD i ("", 0, 0) ∈ watches := by
    rw [List.getD_eq_getElem?_getD, List.getElem?_eq_getElem hi']
    exact List.getElem_mem hi'
  have : ¬ (watches.getD i ("", 0, 0)).1 = "" := hne _ hmem
  simpa using this

theorem mkEntries_good (watches : List (String × ℤ × ℚ)) :
    ∀ pr ∈ (mkEntries watches).map pairOf,
      pr.1 = tcostOf (watches.getD pr.2 ("", 0, 0)) := by
  intro pr hpr
  rw [mkEntries, List.map_map] at hpr
  obtain ⟨i, _, rfl⟩ := List.mem_map.mp hpr
  rfl

theorem mkEntries_orders (watches : List (String × ℤ × ℚ)) :
    (mkEntries watches).map SEntry.ord = List.range watches.length := by
  rw [mkEntries, List.map_map]
  exact List.map_id (List.range watches.length)

/-- C8 counterexample: three sections with positive call counts and
mean times 1, 1, 2 (sections 0 and 1 tie).  The exchange sort returns
the order `[2, 1, 0]`: descending, but the tied sections 0 and 1 appear
in reverse of registration order, so the claimed tie-stability fails
(the registration-stable answer would be `[2, 0, 1]`). -/
theorem c8_counterexample :
    sort_m_order watchesC8 = [2, 1, 0]
    ∧ tcostOf (watchesC8.getD 0 ("", 0, 0)) = tcostOf (watchesC8.getD 1 ("", 0, 0))
    ∧ ¬ sort_m_order watchesC8 = [2, 0, 1] := by
  refine ⟨by decide, by decide, by decide⟩

/-- C8 (amended): on sections with non-empty labels, `sort_m_order`
returns a permutation of the registration indices `0..n-1` that is
sorted by descending cost, where a section's cost is its mean time
`m_time_av` when its summed call count is positive and 0 otherwise;
ties are NOT necessarily kept in registration order (the exchange sort
may reverse equal-cost sections). -/
theorem c8_sort_amended (watches : List (String × ℤ × ℚ))
    (hne : ∀ p ∈ watches, ¬ p.1 = "") :
    List.Perm (sort_m_order watches) (List.range watches.length)
    ∧ List.Sorted (fun a b : ℕ => tcostOf (watches.getD b ("", 0, 0))
        ≤ tcostOf (watches.getD a ("", 0, 0))) (sort_m_order watches) := by
  have hns : noSkip (mkEntries watches) := mkEntries_noSkip watches hne
  have hgood : ∀ pr ∈ (sortPass (mkEntries watches)).map pairOf,
      pr.1 = tcostOf (watches.getD pr.2 ("", 0, 0)) := by
    intro pr hpr
    exact mkEntries_good watches pr ((sortPass_perm (mkEntries watches)).subset hpr)
  constructor
  · have h1 : (sortPass (mkEntries watches)).map SEntry.ord
        = ((sortPass (mkEntries watches)).map pairOf).map Prod.snd := by
      rw [List.map_map]
      rfl
    have h2 : (mkEntries watches).map SEntry.ord
        = ((mkEntries watches).map pairOf).map Prod.snd := by
      rw [List.map_map]
      rfl
    have hp := (sortPass_perm (mkEntries watches)).map Prod.snd
    rw [← h1, ← h2, mkEntries_orders] at hp
    exact hp
  · have hsorted := sortPass_sorted (mkEntries watches) hns
    have hpw : List.Pairwise (fun a b : SEntry => b.tcost ≤ a.tcost)
        (sortPass (mkEntries watches)) := (List.pairwise_map).mp hsorted
    have hpw2 : List.Pairwise (fun a b : SEntry =>
        tcostOf (watches.getD b.ord ("", 0, 0))
          ≤ tcostOf (watches.getD a.ord ("", 0, 0)))
        (sortPass (mkEntries watches)) := by
      refine hpw.imp_of_mem ?_
      intro a b ha hb hab
      have hga : a.tcost = tcostOf (watches.getD a.ord ("", 0, 0)) :=
        hgood (pairOf a) (List.mem_map_of_mem pairOf ha)
      have hgb : b.tcost = tcostOf (watches.getD b.ord ("", 0, 0)) :=
        hgood (pairOf b) (List.mem_map_of_mem pairOf hb)
      rw [← hga, ← hgb]
      exact hab
    exact (List.pairwise_map).mpr hpw2

/-- C8 witness: the amended theorem instantiated on the three-section
input `watchesC8`. -/
theorem c8_witness :
    (∀ p ∈ watchesC8, ¬ p.1 = "")
    ∧ (List.Perm (sort_m_order watchesC8) (List.range watchesC8.length)
      ∧ List.Sorted (fun a b : ℕ => tcostOf (watchesC8.getD b ("", 0, 0))
          ≤ tcostOf (watchesC8.getD a ("", 0, 0))) (sort_m_order watchesC8)) :=
  ⟨by decide, c8_sort_amended watchesC8 (by decide)⟩
theorem mapFind_spec (m : List (String × ℕ)) (k : String) (i : ℕ)
    (h : mapFind m k = some i) : ∃ p ∈ m, p.1 = k ∧ p.2 = i := by
  unfold mapFind at h
  cases hf : m.find? (fun p => p.1 == k) with
  | none => rw [hf] at h; cases h
  | some p =>
      rw [hf] at h
      simp only [Option.map_some'] at h
      have hp := List.find?_some hf
      refine ⟨p, List.mem_of_find?_eq_some hf, ?_, Option.some.inj h⟩
      simpa using hp

theorem mapFind_key_inj (m : List (String × ℕ))
    (hnd : (m.map Prod.snd).Nodup) (k k' : String) (i : ℕ)
    (h : mapFind m k = some i) (h' : mapFind m k' = some i) : k = k' := by
  obtain ⟨p, hpm, hpk, hpi⟩ := mapFind_spec m k i h
  obtain ⟨q, hqm, hqk, hqi⟩ := mapFind_spec m k' i h'
  have hpq : p = q :=
    List.inj_on_of_nodup_map hnd hpm hqm (by rw [hpi, hqi])
  rw [← hpk, ← hqk, hpq]

theorem mstart_registered (g : HwpcGroup) (papi0 : PapiChooser)
    (pm : PerfMonitor) (l : String) (t : ℚ) (i : ℕ)
    (hne : ¬ l = "") (hfind : mapFind pm.m_map_sections l = some i) :
    (PerfMonitor.start g papi0 l t pm).1 =
      { pm with is_exclusive_construct := true,
                m_watchArray := pm.m_watchArray.set i
                  ((arrayGet pm.m_watchArray i).start g t (fun _ _ => 0)).1 } := by
  have hge : ¬ (find_section_object pm l < 0) := by
    unfold find_section_object
    rw [hfind]
    simp
  have hidx : (find_section_object pm l).toNat = i := by
    unfold find_section_object
    rw [hfind]
    rfl
  simp [PerfMonitor.start, hne, hge, hidx]

theorem mstop_registered (g : HwpcGroup) (pm : PerfMonitor) (l : String)
    (t f : ℚ) (it : ℕ) (i : ℕ)
    (hne : ¬ l = "") (hfind : mapFind pm.m_map_sections l = some i) :
    (PerfMonitor.stop g l t f it pm).1 =
      { pm with is_exclusive_construct := false,
                m_watchArray := pm.m_watchArray.set i
                  (if pm.is_exclusive_construct then
                    ((arrayGet pm.m_watchArray i).stop g t f it (fun _ _ => 0)).1
                   else
                    { ((arrayGet pm.m_watchArray i).stop g t f it (fun _ _ => 0)).1 with
                      m_exclusive := false }) } := by
  have hge : ¬ (find_section_object pm l < 0) := by
    unfold find_section_object
    rw [hfind]
    simp
  have hidx : (find_section_object pm l).toNat = i := by
    unfold find_section_object
    rw [hfind]
    rfl
  simp only [PerfMonitor.stop, if_neg hne, if_neg hge, hidx]

theorem start_m_exclusive (g : HwpcGroup) (t : ℚ) (r : ℕ → ℕ → ℤ) (w : PerfWatch) :
    (PerfWatch.start g t r w).1.m_exclusive = w.m_exclusive :=
  (start_scalar_fields g t r w).2.2.2.2.2.2.2.2

theorem stop_m_exclusive (g : HwpcGroup) (t f : ℚ) (it : ℕ) (r : ℕ → ℕ → ℤ)
    (w : PerfWatch) :
    (PerfWatch.stop g t f it r w).1.m_exclusive = w.m_exclusive :=
  (stop_scalar_fields g t f it r w).2.2.2.2.2.2

/-- C4 counterexample: on the overlapping (not nested) pattern
`start A; start B; stop A; stop B`, section B ends with its exclusive
flag false, although no other section was both started and stopped
inside B's active window (indices 1 to 3 of the trace: the only event
in between is A's stop, A having been started before B) — the claimed
"iff" fails in the only-if direction. -/
theorem c4_counterexample :
    ((runM userGroup (freshWatch labA 1).my_papi pmC4 traceC4).m_watchArray.getD 1
        blankWatch).m_exclusive = false
    ∧ (pmC4.m_watchArray.getD 1 blankWatch).m_exclusive = true
    ∧ traceC4.getD 1 dummyEvent = MEvent.ms labB 1
    ∧ traceC4.getD 3 dummyEvent = MEvent.mp labB 3 0 1
    ∧ claimWindowB traceC4 labB labA = false := by
  refine ⟨by decide, by decide, by decide, by decide, by decide⟩

theorem mstart_facts (g : HwpcGroup) (papi0 : PapiChooser)
    (pm : PerfMonitor) (l : String) (t : ℚ) (i : ℕ)
    (hne : ¬ l = "") (hfind : mapFind pm.m_map_sections l = some i) :
    ∃ pm', (PerfMonitor.start g papi0 l t pm).1 = pm'
      ∧ pm'.m_map_sections = pm.m_map_sections
      ∧ pm'.is_exclusive_construct = true
      ∧ pm'.m_watchArray.length = pm.m_watchArray.length
      ∧ ∀ s, (pm'.m_watchArray.getD s blankWatch).m_exclusive
          = (pm.m_watchArray.getD s blankWatch).m_exclusive := by
  refine ⟨_, mstart_registered g papi0 pm l t i hne hfind, rfl, rfl,
    List.length_set _ _ _, ?_⟩
  intro s
  show ((pm.m_watchArray.set i
      ((arrayGet pm.m_watchArray i).start g t (fun _ _ => 0)).1).getD s
        blankWatch).m_exclusive
    = (pm.m_watchArray.getD s blankWatch).m_exclusive
  rw [getD_set]
  split_ifs with hc
  · obtain ⟨rfl, -⟩ := hc
    rw [start_m_exclusive]
    rfl
  · rfl

theorem mstop_facts (g : HwpcGroup) (pm : PerfMonitor) (l : String)
    (t f : ℚ) (it : ℕ) (i : ℕ)
    (hne : ¬ l = "") (hfind : mapFind pm.m_map_sections l = some i)
    (hilt : i < pm.m_watchArray.length) :
    ∃ pm', (PerfMonitor.stop g l t f it pm).1 = pm'
      ∧ pm'.m_map_sections = pm.m_map_sections
      ∧ pm'.is_exclusive_construct = false
      ∧ pm'.m_watchArray.length = pm.m_watchArray.length
      ∧ (pm'.m_watchArray.getD i blankWatch).m_exclusive
          = ((pm.m_watchArray.getD i blankWatch).m_exclusive
              && pm.is_exclusive_construct)
      ∧ ∀ s, ¬ s = i → (pm'.m_watchArray.getD s blankWatch).m_exclusive
          = (pm.m_watchArray.getD s blankWatch).m_exclusive := by
  refine ⟨_, mstop_registered g pm l t f it i hne hfind, rfl, rfl,
    List.length_set _ _ _, ?_, ?_⟩
  · show ((pm.m_watchArray.set i
        (if pm.is_exclusive_construct then
          ((arrayGet pm.m_watchArray i).stop g t f it (fun _ _ => 0)).1
         else
          { ((arrayGet pm.m_watchArray i).stop g t f it (fun _ _ => 0)).1 with
            m_exclusive := false })).getD i blankWatch).m_exclusive
      = ((pm.m_watchArray.getD i blankWatch).m_exclusive
          && pm.is_exclusive_construct)
    rw [getD_set, if_pos ⟨rfl, hilt⟩]
    cases hflag : pm.is_exclusive_construct with
    | false => simp
    | true =>
        simp only [if_true, ite_true, Bool.and_true]
        rw [stop_m_exclusive]
        rfl
  · intro s hsi
    show ((pm.m_watchArray.set i
        (if pm.is_exclusive_construct then
          ((arrayGet pm.m_watchArray i).stop g t f it (fun _ _ => 0)).1
         else
          { ((arrayGet pm.m_watchArray i).stop g t f it (fun _ _ => 0)).1 with
            m_exclusive := false })).getD s blankWatch).m_exclusive
      = (pm.m_watchArray.getD s blankWatch).m_exclusive
    rw [getD_set, if_neg (fun hc => hsi hc.1.symm)]

/-- C4 (amended): for a trace of start/stop calls on registered,
non-blank sections, a section's exclusive flag is false at the end iff
it was false initially or some stop of that section executed while
`is_exclusive_construct` was down — the flag being raised by every
start and lowered by every stop (of any section).  In particular the
flag is cleared exactly when the operation immediately preceding one of
the section's stops was another stop, not when another section's full
start/stop lifetime nests inside this section's window. -/
theorem c4_exclusive_amended (g : HwpcGroup) (papi0 : PapiChooser)
    (pm : PerfMonitor) (tr : List MEvent) (l : String) (s : ℕ)
    (hreg : ∀ e ∈ tr, ¬ e.label = "" ∧ mapFind pm.m_map_sections e.label ≠ none)
    (hnd : (pm.m_map_sections.map Prod.snd).Nodup)
    (hlen : ∀ p ∈ pm.m_map_sections, p.2 < pm.m_watchArray.length)
    (hs : mapFind pm.m_map_sections l = some s) :
    ((runM g papi0 pm tr).m_watchArray.getD s blankWatch).m_exclusive
      = (((pm.m_watchArray.getD s blankWatch).m_exclusive)
          && !(clearedB pm.is_exclusive_construct l tr)) := by
  induction tr generalizing pm with
  | nil => simp [runM, clearedB]
  | cons e tr ih =>
      obtain ⟨hne, hnn⟩ := hreg e (List.mem_cons_self e tr)
      obtain ⟨i, hfind⟩ := Option.ne_none_iff_exists'.mp hnn
      have hregtl : ∀ e' ∈ tr, ¬ e'.label = ""
          ∧ mapFind pm.m_map_sections e'.label ≠ none :=
        fun e' he' => hreg e' (List.mem_cons_of_mem e he')
      have hilt : i < pm.m_watchArray.length := by
        obtain ⟨p, hpm, -, hpi⟩ := mapFind_spec pm.m_map_sections e.label i hfind
        rw [← hpi]
        exact hlen p hpm
      match e with
      | .ms l' t =>
          obtain ⟨pm', heq, hmap', hflag', hlen', hexcl'⟩ :=
            mstart_facts g papi0 pm l' t i hne hfind
          have hstep : runM g papi0 pm (MEvent.ms l' t :: tr)
              = runM g papi0 pm' tr := by
            rw [runM]
            show runM g papi0 (PerfMonitor.start g papi0 l' t pm).1 tr = _
            rw [heq]
          rw [hstep]
          rw [ih pm' (by rw [hmap']; exact hregtl) (by rw [hmap']; exact hnd)
            (by rw [hmap', hlen']; exact hlen) (by rw [hmap']; exact hs)]
          rw [hexcl' s, hflag']
          rfl
      | .mp l' t f it =>
          obtain ⟨pm', heq, hmap', hflag', hlen', hexclI, hexclO⟩ :=
            mstop_facts g pm l' t f it i hne hfind hilt
          have hstep : runM g papi0 pm (MEvent.mp l' t f it :: tr)
              = runM g papi0 pm' tr := by
            rw [runM]
            show runM g papi0 (PerfMonitor.stop g l' t f it pm).1 tr = _
            rw [heq]
          rw [hstep]
          rw [ih pm' (by rw [hmap']; exact hregtl) (by rw [hmap']; exact hnd)
            (by rw [hmap', hlen']; exact hlen) (by rw [hmap']; exact hs)]
          have hcl : clearedB pm.is_exclusive_construct l (MEvent.mp l' t f it :: tr)
              = ((!pm.is_exclusive_construct && (l' == l))
                  || clearedB false l tr) := rfl
          rw [hcl, hflag']
          have hfind' : mapFind pm.m_map_sections l' = some i := hfind
          by_cases hll : l' = l
          · have hieq : i = s := by
              rw [hll] at hfind'
              rw [hfind'] at hs
              exact Option.some.inj hs
            subst hieq
            rw [hexclI]
            have hbeq : (l' == l) = true := by
              rw [hll]
              exact beq_self_eq_true l
            rw [hbeq]
            cases (pm.m_watchArray.getD i blankWatch).m_exclusive <;>
              cases pm.is_exclusive_construct <;>
              cases clearedB false l tr <;> rfl
          · have hineq : ¬ s = i := by
              intro hieq
              rw [hieq] at hs
              exact hll (mapFind_key_inj pm.m_map_sections hnd l' l i hfind' hs)
            rw [hexclO s hineq]
            have hbeq : (l' == l) = false := beq_eq_false_iff_ne.mpr hll
            rw [hbeq]
            cases (pm.m_watchArray.getD s blankWatch).m_exclusive <;>
              cases pm.is_exclusive_construct <;>
              cases clearedB false l tr <;> rfl


/-- C4 witness: the amended theorem instantiated on the two-section
monitor `pmC4`, the overlapping trace `traceC4`, and section B. -/
theorem c4_witness :
    ((∀ e ∈ traceC4, ¬ e.label = "" ∧ mapFind pmC4.m_map_sections e.label ≠ none)
      ∧ (pmC4.m_map_sections.map Prod.snd).Nodup
      ∧ (∀ p ∈ pmC4.m_map_sections, p.2 < pmC4.m_watchArray.length)
      ∧ mapFind pmC4.m_map_sections labB = some 1)
    ∧ ((runM userGroup (freshWatch labA 1).my_papi pmC4 traceC4).m_watchArray.getD 1
          blankWatch).m_exclusive
        = (((pmC4.m_watchArray.getD 1 blankWatch).m_exclusive)
            && !(clearedB pmC4.is_exclusive_construct labB traceC4)) :=
  ⟨⟨by decide, by decide, by decide, by decide⟩,
    c4_exclusive_amended userGroup (freshWatch labA 1).my_papi pmC4 traceC4 labB 1
      (by decide) (by decide) (by decide) (by decide)⟩

end ShellPM
